import Mathlib

/-!
Verification development for the Hound lead-qualification pipeline.

The Python sources (`domain_validator.py`, `domain_cache.py`,
`homepage_signals.py`, `server.py`) are shallowly embedded below:
pure functions become Lean functions, dictionaries become structures,
network and external-library effects (DNS resolution, GeoIP database,
HTTP fetching, the rapidfuzz similarity scores, Python `re` for the two
US-signal patterns) become explicit function parameters.  Machine
integers do not occur; IPv4 addresses are modelled as natural numbers
below 2^32.
-/

namespace Hound

/-! ### Generic helpers

String manipulation is implemented over the underlying character lists
(`String.data`) rather than through byte-position core functions such as
`String.toLower`/`String.trim`, so that every definition evaluates by
kernel reduction.  The sources handle ASCII keyword/domain data, so the
ASCII behaviour of Python's `str.lower`/`str.strip` is what is
modelled. -/

/-- ASCII lowercase of one character (what `str.lower` does on ASCII). -/
def strLower (s : String) : String := ⟨s.data.map Char.toLower⟩

/-- ASCII whitespace recognised by `str.strip()`. -/
def isSpaceChar (c : Char) : Bool :=
  c = ' ' || c = '\t' || c = '\n' || c = '\r' || c = '\x0b' || c = '\x0c'

/-- `str.strip()` on character lists. -/
def trimChars (cs : List Char) : List Char :=
  ((cs.dropWhile isSpaceChar).reverse.dropWhile isSpaceChar).reverse

/-- `str.strip()`. -/
def strTrim (s : String) : String := ⟨trimChars s.data⟩

/-- `str.startswith`. -/
def strStartsWith (s p : String) : Bool := p.data.isPrefixOf s.data

/-- Drop the first `n` characters (`s[n:]`). -/
def strDrop (s : String) (n : Nat) : String := ⟨s.data.drop n⟩

/-- Character membership (`c in s`). -/
def strHasChar (s : String) (c : Char) : Bool := s.data.contains c

/-- Code-point lexicographic comparison (Python `<` on strings). -/
def charListLt : List Char → List Char → Bool
  | [], [] => false
  | [], _ :: _ => true
  | _ :: _, [] => false
  | a :: as, b :: bs => if a < b then true else if b < a then false else charListLt as bs

def strLt (a b : String) : Bool := charListLt a.data b.data

/-- `sep.join(parts)`. -/
def strJoin (sep : String) : List String → String
  | [] => ""
  | [x] => x
  | x :: xs => x ++ sep ++ strJoin sep xs

/-- Insert a string into a list if absent, at the end (models adding to a
Python `set` whose eventual use is `sorted(...)`: only membership matters). -/
def listInsert (s : String) (l : List String) : List String :=
  if s ∈ l then l else l ++ [s]

theorem listInsert_ne_nil (s : String) (l : List String) : listInsert s l ≠ [] := by
  unfold listInsert
  split
  · intro h
    subst h
    simp_all
  · simp

/-- Insertion step of an ascending insertion sort on strings. -/
def insertStr (s : String) : List String → List String
  | [] => [s]
  | t :: ts => if strLt t s then t :: insertStr s ts else s :: t :: ts

/-- Ascending sort of strings (models Python `sorted` on string sets;
Python compares strings lexicographically by code point, as Lean does). -/
def sortStrs (l : List String) : List String := l.foldr insertStr []

/-! ### Domain validator: CDN table and geo evaluation (`domain_validator.py`) -/

/-- An IPv4 address as its 32-bit value. -/
abbrev Ip := Nat

/-- Build an address from dotted-quad components. -/
def mkIp (a b c d : Nat) : Ip := ((a * 256 + b) * 256 + c) * 256 + d

/-- One CIDR block of `COMMON_CDN_IPV4_RANGES`, pre-parsed. -/
structure CdnNet where
  provider : String
  base : Ip
  prefixLen : Nat
deriving Repr, DecidableEq

/-- Membership of an address in a CIDR block (what
`ipaddress.ip_network(cidr)` containment computes for IPv4). -/
def cdnContains (n : CdnNet) (ip : Ip) : Bool :=
  ip / 2 ^ (32 - n.prefixLen) == n.base / 2 ^ (32 - n.prefixLen)

/-- `_COMPILED_CDN_NETWORKS`: the static CDN/cloud IPv4 ranges of
`COMMON_CDN_IPV4_RANGES`, in dict-insertion order. -/
def compiledCdnNetworks : List CdnNet := [
  ⟨"cloudflare", mkIp 173 245 48 0, 20⟩,
  ⟨"cloudflare", mkIp 103 21 244 0, 22⟩,
  ⟨"cloudflare", mkIp 103 22 200 0, 22⟩,
  ⟨"cloudflare", mkIp 103 31 4 0, 22⟩,
  ⟨"cloudflare", mkIp 141 101 64 0, 18⟩,
  ⟨"cloudflare", mkIp 108 162 192 0, 18⟩,
  ⟨"cloudflare", mkIp 190 93 240 0, 20⟩,
  ⟨"cloudflare", mkIp 188 114 96 0, 20⟩,
  ⟨"cloudflare", mkIp 197 234 240 0, 22⟩,
  ⟨"cloudflare", mkIp 198 41 128 0, 17⟩,
  ⟨"cloudflare", mkIp 162 158 0 0, 15⟩,
  ⟨"cloudflare", mkIp 104 16 0 0, 13⟩,
  ⟨"cloudflare", mkIp 172 64 0 0, 13⟩,
  ⟨"cloudflare", mkIp 131 0 72 0, 22⟩,
  ⟨"aws", mkIp 13 32 0 0, 15⟩,
  ⟨"aws", mkIp 13 224 0 0, 14⟩,
  ⟨"aws", mkIp 18 64 0 0, 14⟩,
  ⟨"aws", mkIp 52 46 0 0, 18⟩,
  ⟨"aws", mkIp 52 82 128 0, 19⟩,
  ⟨"aws", mkIp 54 182 0 0, 16⟩,
  ⟨"gcp", mkIp 34 64 0 0, 10⟩,
  ⟨"gcp", mkIp 34 128 0 0, 10⟩,
  ⟨"gcp", mkIp 35 184 0 0, 13⟩,
  ⟨"gcp", mkIp 35 192 0 0, 14⟩,
  ⟨"gcp", mkIp 35 196 0 0, 15⟩,
  ⟨"gcp", mkIp 35 198 0 0, 16⟩,
  ⟨"azure", mkIp 20 0 0 0, 11⟩,
  ⟨"azure", mkIp 20 33 0 0, 16⟩,
  ⟨"azure", mkIp 40 64 0 0, 10⟩,
  ⟨"azure", mkIp 52 224 0 0, 11⟩,
  ⟨"vercel", mkIp 76 76 21 0, 24⟩,
  ⟨"vercel", mkIp 76 76 22 0, 24⟩,
  ⟨"vercel", mkIp 76 76 26 0, 24⟩,
  ⟨"vercel", mkIp 216 198 79 0, 24⟩,
  ⟨"fastly", mkIp 151 101 0 0, 16⟩,
  ⟨"fastly", mkIp 146 75 0 0, 16⟩,
  ⟨"fastly", mkIp 185 31 16 0, 22⟩,
  ⟨"akamai", mkIp 23 32 0 0, 11⟩,
  ⟨"akamai", mkIp 23 192 0 0, 11⟩,
  ⟨"akamai", mkIp 96 6 0 0, 15⟩,
  ⟨"akamai", mkIp 184 24 0 0, 13⟩]

/-- `_ip_in_known_cdn`: first matching provider, if any. -/
def ipInKnownCdn (ip : Ip) : Option String :=
  match compiledCdnNetworks.find? (fun n => cdnContains n ip) with
  | some n => some n.provider
  | none => none

/-- Accumulator of the loop in `_evaluate_geo_for_ips`.  The Python sets
`non_us_countries` and `cdn_hits` are kept as duplicate-free lists; they
are only ever tested for emptiness and then `sorted(...)`. -/
structure GeoAccum where
  nonUs : List String
  usFound : Bool
  unknownFound : Bool
  cdnHits : List String
deriving Repr, DecidableEq

/-- One iteration of the loop in `_evaluate_geo_for_ips`.  The country
lookup parameter models `_lookup_country_code` over the external GeoIP
database; `if not country` in Python also treats the empty string as
missing, which the `c = ""` test mirrors. -/
def geoStep (lookup : Ip → Option String) (acc : GeoAccum) (ip : Ip) : GeoAccum :=
  match ipInKnownCdn ip with
  | some provider => { acc with cdnHits := listInsert provider acc.cdnHits }
  | none =>
    match lookup ip with
    | none => { acc with unknownFound := true }
    | some c =>
      if c = "" then { acc with unknownFound := true }
      else if c = "US" then { acc with usFound := true }
      else { acc with nonUs := listInsert c acc.nonUs }

/-- The loop of `_evaluate_geo_for_ips`. -/
def geoScan (lookup : Ip → Option String) (ips : List Ip) : GeoAccum :=
  ips.foldl (geoStep lookup) ⟨[], false, false, []⟩

/-- Result dict of `_evaluate_geo_for_ips`. -/
structure GeoEval where
  geo_status : String
  geo_country : String
  geo_inconclusive : Bool
  is_eligible : Bool
  status : String
deriving Repr, DecidableEq

/-- `_evaluate_geo_for_ips`.  The Python function's final two returns
(`unknown_found` and the fall-through) produce the identical dict, so
they are merged into the last branch here. -/
def evaluateGeoForIps (lookup : Ip → Option String) (ips : List Ip) : GeoEval :=
  let acc := geoScan lookup ips
  if acc.nonUs ≠ [] then
    { geo_status := "non_us",
      geo_country := strJoin "," (sortStrs acc.nonUs),
      geo_inconclusive := false, is_eligible := false,
      status := "non_us_country:" ++ strJoin "," (sortStrs acc.nonUs) }
  else if acc.cdnHits ≠ [] then
    { geo_status := "inconclusive_cdn", geo_country := "",
      geo_inconclusive := true, is_eligible := true,
      status := "cdn_inconclusive:" ++ strJoin "," (sortStrs acc.cdnHits) }
  else if acc.usFound then
    { geo_status := "us", geo_country := "US",
      geo_inconclusive := false, is_eligible := true, status := "us" }
  else
    { geo_status := "inconclusive_geo", geo_country := "",
      geo_inconclusive := true, is_eligible := true, status := "geo_inconclusive" }

/-- The non-US country code an address contributes in
`_evaluate_geo_for_ips`, if any: not in a known CDN range, and
geolocated to a nonempty country other than `US`. -/
def ipNonUsCode (lookup : Ip → Option String) (ip : Ip) : Option String :=
  if (ipInKnownCdn ip).isSome then none
  else
    match lookup ip with
    | none => none
    | some c => if c = "" ∨ c = "US" then none else some c

theorem geoStep_nonUs_nil (lookup : Ip → Option String) (acc : GeoAccum) (ip : Ip) :
    (geoStep lookup acc ip).nonUs = [] ↔
      acc.nonUs = [] ∧ ipNonUsCode lookup ip = none := by
  unfold geoStep ipNonUsCode
  cases h : ipInKnownCdn ip <;> simp [h]
  cases hl : lookup ip
  · simp
  · rename_i c
    by_cases hc : c = ""
    · simp [hc]
    · by_cases hus : c = "US"
      · simp [hc, hus]
      · simp [hc, hus, listInsert_ne_nil]

theorem geoStep_cdn_nil (lookup : Ip → Option String) (acc : GeoAccum) (ip : Ip) :
    (geoStep lookup acc ip).cdnHits = [] ↔
      acc.cdnHits = [] ∧ ipInKnownCdn ip = none := by
  unfold geoStep
  cases h : ipInKnownCdn ip
  · simp
    cases hl : lookup ip
    · simp
    · rename_i c
      by_cases hc : c = ""
      · simp [hc]
      · by_cases hus : c = "US"
        · simp [hc, hus]
        · simp [hc, hus]
  · simp [listInsert_ne_nil]

theorem geoStep_usFound (lookup : Ip → Option String) (acc : GeoAccum) (ip : Ip) :
    (geoStep lookup acc ip).usFound = true ↔
      acc.usFound = true ∨ (ipInKnownCdn ip = none ∧ lookup ip = some "US") := by
  unfold geoStep
  cases h : ipInKnownCdn ip
  · simp
    cases hl : lookup ip
    · simp
    · rename_i c
      by_cases hc : c = ""
      · simp [hc]
      · by_cases hus : c = "US"
        · simp [hc, hus]
        · simp [hc, hus]
  · simp [h]

theorem geoScan_fold_nonUs_nil (lookup : Ip → Option String) (ips : List Ip)
    (acc : GeoAccum) :
    (ips.foldl (geoStep lookup) acc).nonUs = [] ↔
      acc.nonUs = [] ∧ ∀ ip ∈ ips, ipNonUsCode lookup ip = none := by
  induction ips generalizing acc with
  | nil => simp
  | cons ip rest ih =>
    simp only [List.foldl_cons, ih, geoStep_nonUs_nil, List.mem_cons]
    constructor
    · rintro ⟨⟨h1, h2⟩, h3⟩
      exact ⟨h1, fun i hi => hi.elim (fun he => he ▸ h2) (h3 i)⟩
    · rintro ⟨h1, h2⟩
      exact ⟨⟨h1, h2 ip (Or.inl rfl)⟩, fun i hi => h2 i (Or.inr hi)⟩

theorem geoScan_fold_cdn_nil (lookup : Ip → Option String) (ips : List Ip)
    (acc : GeoAccum) :
    (ips.foldl (geoStep lookup) acc).cdnHits = [] ↔
      acc.cdnHits = [] ∧ ∀ ip ∈ ips, ipInKnownCdn ip = none := by
  induction ips generalizing acc with
  | nil => simp
  | cons ip rest ih =>
    simp only [List.foldl_cons, ih, geoStep_cdn_nil, List.mem_cons]
    constructor
    · rintro ⟨⟨h1, h2⟩, h3⟩
      exact ⟨h1, fun i hi => hi.elim (fun he => he ▸ h2) (h3 i)⟩
    · rintro ⟨h1, h2⟩
      exact ⟨⟨h1, h2 ip (Or.inl rfl)⟩, fun i hi => h2 i (Or.inr hi)⟩

theorem geoScan_fold_usFound (lookup : Ip → Option String) (ips : List Ip)
    (acc : GeoAccum) :
    (ips.foldl (geoStep lookup) acc).usFound = true ↔
      acc.usFound = true ∨
        ∃ ip ∈ ips, ipInKnownCdn ip = none ∧ lookup ip = some "US" := by
  induction ips generalizing acc with
  | nil => simp
  | cons ip rest ih =>
    simp only [List.foldl_cons, ih, geoStep_usFound, List.mem_cons]
    constructor
    · rintro (( h | h ) | ⟨i, hi, h⟩)
      · exact Or.inl h
      · exact Or.inr ⟨ip, Or.inl rfl, h⟩
      · exact Or.inr ⟨i, Or.inr hi, h⟩
    · rintro (h | ⟨i, hi | hi, h⟩)
      · exact Or.inl (Or.inl h)
      · exact Or.inl (Or.inr (hi ▸ h))
      · exact Or.inr ⟨i, hi, h⟩

/-- Country lookup for the one-US-one-German-address example: `8.8.8.8`
geolocates to the US, `9.9.9.9` to Germany (neither address lies in a
known CDN range). -/
def exampleLookupC1 (ip : Ip) : Option String :=
  if ip = mkIp 8 8 8 8 then some "US"
  else if ip = mkIp 9 9 9 9 then some "DE" else none

/-- C1: eligibility priority of `_evaluate_geo_for_ips`.  Any address
outside the known CDN/cloud ranges that geolocates to a non-US country
makes the result ineligible with status `non_us_country:<sorted codes>`,
even when other addresses are US or CDN; otherwise any CDN/cloud address
gives eligible `inconclusive_cdn`; otherwise any US address gives
eligible `us`; otherwise the result is eligible `inconclusive_geo`.
A domain resolving only to `104.16.0.1` is eligible `inconclusive_cdn`
(whatever the geo database says), and one resolving to one US and one
German address is ineligible with status `non_us_country:DE`. -/
theorem c1_geo_eligibility_priority (lookup : Ip → Option String) (ips : List Ip) :
    ((∃ ip ∈ ips, (ipNonUsCode lookup ip).isSome) →
      (evaluateGeoForIps lookup ips).is_eligible = false ∧
      (evaluateGeoForIps lookup ips).status =
        "non_us_country:" ++ strJoin "," (sortStrs (geoScan lookup ips).nonUs)) ∧
    ((∀ ip ∈ ips, ipNonUsCode lookup ip = none) →
      (∃ ip ∈ ips, (ipInKnownCdn ip).isSome) →
      (evaluateGeoForIps lookup ips).is_eligible = true ∧
      (evaluateGeoForIps lookup ips).geo_status = "inconclusive_cdn") ∧
    ((∀ ip ∈ ips, ipNonUsCode lookup ip = none) →
      (∀ ip ∈ ips, ipInKnownCdn ip = none) →
      (∃ ip ∈ ips, lookup ip = some "US") →
      (evaluateGeoForIps lookup ips).is_eligible = true ∧
      (evaluateGeoForIps lookup ips).geo_status = "us") ∧
    ((∀ ip ∈ ips, ipNonUsCode lookup ip = none) →
      (∀ ip ∈ ips, ipInKnownCdn ip = none) →
      (∀ ip ∈ ips, lookup ip ≠ some "US") →
      (evaluateGeoForIps lookup ips).is_eligible = true ∧
      (evaluateGeoForIps lookup ips).geo_status = "inconclusive_geo") ∧
    ((evaluateGeoForIps lookup [mkIp 104 16 0 1]).geo_status = "inconclusive_cdn" ∧
     (evaluateGeoForIps lookup [mkIp 104 16 0 1]).is_eligible = true) ∧
    ((evaluateGeoForIps exampleLookupC1 [mkIp 8 8 8 8, mkIp 9 9 9 9]).is_eligible = false ∧
     (evaluateGeoForIps exampleLookupC1 [mkIp 8 8 8 8, mkIp 9 9 9 9]).status =
       "non_us_country:DE") := by
  refine ⟨?_, ?_, ?_, ?_, ?_, ?_⟩
  · intro h
    have hne : (geoScan lookup ips).nonUs ≠ [] := by
      rw [geoScan, ne_eq, geoScan_fold_nonUs_nil]
      rintro ⟨-, hall⟩
      obtain ⟨ip, hip, hsome⟩ := h
      rw [hall ip hip] at hsome
      simp at hsome
    simp [evaluateGeoForIps, hne]
  · intro hnone h
    have hnil : (geoScan lookup ips).nonUs = [] := by
      rw [geoScan, geoScan_fold_nonUs_nil]
      exact ⟨rfl, hnone⟩
    have hcdn : (geoScan lookup ips).cdnHits ≠ [] := by
      rw [geoScan, ne_eq, geoScan_fold_cdn_nil]
      rintro ⟨-, hall⟩
      obtain ⟨ip, hip, hsome⟩ := h
      rw [hall ip hip] at hsome
      simp at hsome
    simp [evaluateGeoForIps, hnil, hcdn]
  · intro hnone hcdnall hus
    have hnil : (geoScan lookup ips).nonUs = [] := by
      rw [geoScan, geoScan_fold_nonUs_nil]
      exact ⟨rfl, hnone⟩
    have hcdn : (geoScan lookup ips).cdnHits = [] := by
      rw [geoScan, geoScan_fold_cdn_nil]
      exact ⟨rfl, hcdnall⟩
    have husf : (geoScan lookup ips).usFound = true := by
      rw [geoScan, geoScan_fold_usFound]
      obtain ⟨ip, hip, h⟩ := hus
      exact Or.inr ⟨ip, hip, hcdnall ip hip, h⟩
    simp [evaluateGeoForIps, hnil, hcdn, husf]
  · intro hnone hcdnall hnus
    have hnil : (geoScan lookup ips).nonUs = [] := by
      rw [geoScan, geoScan_fold_nonUs_nil]
      exact ⟨rfl, hnone⟩
    have hcdn : (geoScan lookup ips).cdnHits = [] := by
      rw [geoScan, geoScan_fold_cdn_nil]
      exact ⟨rfl, hcdnall⟩
    have husf : (geoScan lookup ips).usFound = false := by
      rw [← Bool.not_eq_true, geoScan, geoScan_fold_usFound]
      rintro (h | ⟨ip, hip, -, h⟩)
      · simp at h
      · exact hnus ip hip h
    simp [evaluateGeoForIps, hnil, hcdn, husf]
  · have hcf : ipInKnownCdn (mkIp 104 16 0 1) = some "cloudflare" := by decide
    constructor <;>
      simp [evaluateGeoForIps, geoScan, geoStep, hcf, listInsert]
  · constructor <;> decide

/-- Witness for C1: the non-US veto branch and the US branch of
`c1_geo_eligibility_priority`, instantiated at the concrete example
lookup and address lists. -/
theorem c1_geo_eligibility_priority_witness :
    (evaluateGeoForIps exampleLookupC1 [mkIp 8 8 8 8, mkIp 9 9 9 9]).is_eligible = false ∧
    (evaluateGeoForIps exampleLookupC1 [mkIp 8 8 8 8]).geo_status = "us" :=
  ⟨((c1_geo_eligibility_priority exampleLookupC1 [mkIp 8 8 8 8, mkIp 9 9 9 9]).1
      (by decide)).1,
   ((c1_geo_eligibility_priority exampleLookupC1 [mkIp 8 8 8 8]).2.2.1
      (by decide) (by decide) (by decide)).2⟩

/-! ### Domain validator: normalization, shape, cache interaction -/

/-- Insertion step of an ascending insertion sort on naturals. -/
def insertNat (n : Nat) : List Nat → List Nat
  | [] => [n]
  | m :: ms => if m < n then m :: insertNat n ms else n :: m :: ms

/-- Ascending numeric sort (Python sorts the dotted-quad strings
lexicographically instead; no claim below depends on the ordering of
resolved addresses). -/
def sortNats (l : List Nat) : List Nat := l.foldr insertNat []

/-- Duplicate removal keeping first occurrences (models collecting into a
Python `set` that is subsequently sorted). -/
def dedupNats (l : List Nat) : List Nat :=
  l.foldl (fun acc n => if n ∈ acc then acc else acc ++ [n]) []

/-- Dotted-quad rendering of an address. -/
def ipStr (ip : Ip) : String :=
  toString (ip / 16777216 % 256) ++ "." ++ toString (ip / 65536 % 256) ++ "." ++
    toString (ip / 256 % 256) ++ "." ++ toString (ip % 256)

/-- Strip each listed prefix once, in order (the loop in
`normalize_domain`). -/
def stripLeadingTokens (d : String) (ps : List String) : String :=
  ps.foldl (fun acc p => if strStartsWith acc p then strDrop acc p.data.length else acc) d

/-- `domain_validator.normalize_domain`: trim, lowercase, strip scheme
and `www.`, cut at the first `/`. -/
def normalizeDomainV (d : String) : String :=
  if d = "" then ""
  else
    let d1 := strLower (strTrim d)
    let d2 := stripLeadingTokens d1 ["https://", "http://", "www."]
    if strHasChar d2 '/' then ⟨d2.data.takeWhile (fun c => c != '/')⟩ else d2

def isLowerAlphaChar (c : Char) : Bool := 'a' ≤ c && c ≤ 'z'

def isDigitChar (c : Char) : Bool := '0' ≤ c && c ≤ '9'

def isDomainHeadChar (c : Char) : Bool := isLowerAlphaChar c || isDigitChar c

def isDomainBodyChar (c : Char) : Bool := isDomainHeadChar c || c = '.' || c = '-'

/-- Split a character list around its last `'.'`, if any. -/
def splitLastDot : List Char → Option (List Char × List Char)
  | [] => none
  | c :: rest =>
    match splitLastDot rest with
    | some (pre, post) => some (c :: pre, post)
    | none => if c = '.' then some ([], rest) else none

/-- Full match of `DOMAIN_RE` = `^[a-z0-9][a-z0-9.-]+\.[a-z]{2,}(?:/.*)?$`
on inputs without `/` (normalization removes everything after a slash,
and the inputs checked are already lowercase).  Because the trailing
`[a-z]{2,}` cannot contain a dot, a full match exists exactly when the
decomposition at the LAST dot has an all-alpha suffix of length at least
two and a valid prefix. -/
def domainReMatch (s : String) : Bool :=
  match s.toList with
  | [] => false
  | c0 :: rest =>
    isDomainHeadChar c0 &&
      (match splitLastDot rest with
       | none => false
       | some (mid, tld) =>
         decide (1 ≤ mid.length) && mid.all isDomainBodyChar &&
           decide (2 ≤ tld.length) && tld.all isLowerAlphaChar)

/-- Junk placeholder values rejected before normalization
(`("unknown", "n/a", "none", "")` in `check_domain_dns`). -/
def junkDomainValues : List String := ["unknown", "n/a", "none", ""]

/-- Result dict of `_shape_result`. -/
structure DnsResult where
  domain : String
  has_mx : Bool
  has_a_record : Bool
  is_alive : Bool
  status : String
  resolved_ips : List Ip
  resolved_ips_csv : String
  geo_status : String
  geo_country : String
  geo_inconclusive : Bool
  is_eligible : Bool
deriving Repr, DecidableEq

/-- `_shape_result`.  All arguments are positional; `is_eligible = none`
selects the `bool(is_alive)` default. -/
def shapeResult (domain : String) (has_a_record is_alive : Bool) (status : String)
    (resolved_ips : List Ip) (geo_status geo_country : String)
    (geo_inconclusive : Bool) (is_eligible : Option Bool) : DnsResult :=
  let ips := sortNats (dedupNats resolved_ips)
  { domain := domain, has_mx := false, has_a_record := has_a_record,
    is_alive := is_alive, status := status, resolved_ips := ips,
    resolved_ips_csv := strJoin "," (ips.map ipStr),
    geo_status := geo_status, geo_country := geo_country,
    geo_inconclusive := geo_inconclusive,
    is_eligible := is_eligible.getD is_alive }

/-- A row of the `domain_cache` store as read back by
`get_cached_domain`. -/
structure CachedDomain where
  has_mx : Bool
  has_a_record : Bool
  is_alive : Bool
  status : String
  resolved_ips : List Ip
  geo_status : String
  geo_country : String
  geo_inconclusive : Bool
deriving Repr, DecidableEq

/-- Legacy status labels skipped by `_cached_result_is_usable`. -/
def legacyCacheStatuses : List String :=
  ["has_mx", "has_a_record", "has_aaaa_record", "has_a_record_system", "no_dns_records"]

/-- `_cached_result_is_usable`. -/
def cachedResultIsUsable (c : CachedDomain) : Bool :=
  let status := strLower (strTrim c.status)
  if legacyCacheStatuses.contains status then false
  else if c.is_alive && c.resolved_ips.isEmpty then false
  else true

/-- Dead statuses forcing ineligibility in `_result_from_cache`. -/
def deadCacheStatuses : List String :=
  ["invalid", "nxdomain", "dns_timeout", "dns_unresolved", "no_a_record", "no domain", "no_domain"]

/-- `_result_from_cache`. -/
def resultFromCache (inputDomain : String) (c : CachedDomain) : DnsResult :=
  let status := if c.status = "" then "unknown" else c.status
  let is_alive := c.is_alive
  let elig1 :=
    if strStartsWith status "non_us_country" then false
    else if deadCacheStatuses.contains status then false
    else is_alive
  let elig2 := if c.geo_inconclusive || strStartsWith status "cdn_inconclusive" then true else elig1
  shapeResult inputDomain c.has_a_record is_alive status c.resolved_ips
    (if c.geo_status = "" then "not_checked" else c.geo_status)
    c.geo_country c.geo_inconclusive (some elig2)

/-- Outcome of one `resolver.resolve(clean, "A")` call, covering the
exception arms of `check_domain_dns`. -/
inductive DnsOutcome where
  | ok (ips : List Ip)
  | nxdomain
  | noAnswer
  | timeout
  | noNameservers
  | dnsError
  | otherError
deriving Repr, DecidableEq

/-- Arguments of one `set_cached_domain` call. -/
structure CacheWrite where
  domain : String
  has_mx : Bool
  has_a_record : Bool
  is_alive : Bool
  status : String
  resolved_ips : List Ip
  geo_status : String
  geo_country : String
  geo_inconclusive : Bool
deriving Repr, DecidableEq

/-- A `set_cached_domain` call with only the five positional arguments
(the dead-domain writes of `check_domain_dns`). -/
def cacheWriteDead (clean status : String) : CacheWrite :=
  ⟨clean, false, false, false, status, [], "not_checked", "", false⟩

/-- The resolution part of `check_domain_dns` (after validation and a
cache miss), returning the result together with the cache write it
performs, if any. -/
def checkDomainDnsResolve (resolve : String → DnsOutcome) (lookup : Ip → Option String)
    (domain clean : String) : DnsResult × Option CacheWrite :=
  match resolve clean with
  | .ok raw =>
    let resolved := sortNats (dedupNats raw)
    if resolved.isEmpty then
      let r := shapeResult domain false false "no_a_record" [] "not_checked" "" false (some false)
      (r, some (cacheWriteDead clean r.status))
    else
      let g := evaluateGeoForIps lookup resolved
      let r := shapeResult domain true true g.status resolved g.geo_status g.geo_country
        g.geo_inconclusive (some g.is_eligible)
      (r, some ⟨clean, false, true, true, r.status, r.resolved_ips,
        (if r.geo_status = "" then "not_checked" else r.geo_status),
        r.geo_country, r.geo_inconclusive⟩)
  | .nxdomain =>
    let r := shapeResult domain false false "nxdomain" [] "not_checked" "" false (some false)
    (r, some (cacheWriteDead clean r.status))
  | .noAnswer =>
    let r := shapeResult domain false false "no_a_record" [] "not_checked" "" false (some false)
    (r, some (cacheWriteDead clean r.status))
  | .timeout =>
    (shapeResult domain false false "dns_timeout" [] "not_checked" "" false (some false), none)
  | .noNameservers =>
    (shapeResult domain false false "dns_unresolved" [] "not_checked" "" false (some false), none)
  | .dnsError =>
    (shapeResult domain false false "dns_error" [] "not_checked" "" false (some false), none)
  | .otherError =>
    (shapeResult domain false false "dns_error" [] "not_checked" "" false (some false), none)

/-- `check_domain_dns`, with the cache read, the DNS resolution and the
geo lookup passed in as functions; the second component is the cache
write performed, if any. -/
def checkDomainDns (cache : String → Option CachedDomain) (resolve : String → DnsOutcome)
    (lookup : Ip → Option String) (domain : String) : DnsResult × Option CacheWrite :=
  if domain = "" || junkDomainValues.contains (strLower domain) then
    (shapeResult domain false false "no_domain" [] "not_checked" "" false (some false), none)
  else
    let clean := normalizeDomainV domain
    if clean = "" || !(strHasChar clean '.') || !domainReMatch clean then
      (shapeResult domain false false "invalid" [] "not_checked" "" false (some false), none)
    else
      match cache clean with
      | some c =>
        if cachedResultIsUsable c then (resultFromCache domain c, none)
        else checkDomainDnsResolve resolve lookup domain clean
      | none => checkDomainDnsResolve resolve lookup domain clean

/-- Outcomes after which `check_domain_dns` stores a cache entry: a
successful resolution (even one yielding no usable address), NXDOMAIN,
and a definitive no-answer. -/
def definitiveDnsOutcome : DnsOutcome → Bool
  | .ok _ => true
  | .nxdomain => true
  | .noAnswer => true
  | _ => false

/-- C7: for a well-formed domain that misses the cache, `check_domain_dns`
writes a cache entry exactly when resolution succeeds or fails
definitively (NXDOMAIN / no A record); transient failures (timeout,
no-nameserver, resolver errors) write nothing, so such domains are
re-resolved on the next invocation. -/
theorem c7_cache_write_policy (cache : String → Option CachedDomain)
    (resolve : String → DnsOutcome) (lookup : Ip → Option String) (domain : String)
    (hjunk : (domain = "" || junkDomainValues.contains (strLower domain)) = false)
    (hvalid : (normalizeDomainV domain = "" ||
      !(strHasChar (normalizeDomainV domain) '.') ||
      !domainReMatch (normalizeDomainV domain)) = false)
    (hmiss : ∀ c, cache (normalizeDomainV domain) = some c → cachedResultIsUsable c = false) :
    ((checkDomainDns cache resolve lookup domain).2).isSome =
      definitiveDnsOutcome (resolve (normalizeDomainV domain)) := by
  unfold checkDomainDns
  rw [hjunk]
  simp only [Bool.false_eq_true, if_false]
  rw [hvalid]
  simp only [Bool.false_eq_true, if_false]
  have hres : ((checkDomainDnsResolve resolve lookup domain (normalizeDomainV domain)).2).isSome =
      definitiveDnsOutcome (resolve (normalizeDomainV domain)) := by
    unfold checkDomainDnsResolve
    cases resolve (normalizeDomainV domain) <;> simp [definitiveDnsOutcome]
    split <;> simp
  cases hc : cache (normalizeDomainV domain) with
  | none => exact hres
  | some c => simpa [hmiss c hc] using hres

/-- Witness for C7: a transiently failing resolution (timeout) of
`example.com` against an empty cache performs no cache write. -/
theorem c7_cache_write_policy_witness :
    ((checkDomainDns (fun _ => none) (fun _ => DnsOutcome.timeout) (fun _ => none)
      "example.com").2).isSome = false := by
  have h := c7_cache_write_policy (fun _ => none) (fun _ => DnsOutcome.timeout)
    (fun _ => none) "example.com" (by decide) (by decide)
    (fun c hc => Option.noConfusion hc)
  rw [h]
  rfl

/-! ### Row status taxonomy (`server.py` `_build_row_taxonomy`) -/

/-- The `.replace("/", "_").replace(" ", "_").replace(":", "_")` chain
applied to domain-removal details. -/
def sanitizeDomainReason (s : String) : String :=
  ⟨s.data.map (fun c => if c = '/' || c = ' ' || c = ':' then '_' else c)⟩

/-- The status chain of `_build_row_taxonomy` for one row id: the
`if/elif` cascade over the id sets, with the final `else` falling back
to `removed_filter`. -/
def taxonomyStatus (qualifiedIds removedFilterIds removedDomainIds removedHubspotIds : Finset Nat)
    (rid : Nat) : String :=
  if rid ∈ qualifiedIds then "qualified"
  else if rid ∈ removedFilterIds then "removed_filter"
  else if rid ∈ removedDomainIds then "removed_domain"
  else if rid ∈ removedHubspotIds then "removed_hubspot"
  else "removed_filter"

/-- The reason chain of `_build_row_taxonomy` for one row id.  The reason
maps are `dict.get` lookups with defaults. -/
def taxonomyReason (qualifiedIds removedFilterIds removedDomainIds removedHubspotIds : Finset Nat)
    (filterReason domainReason : Nat → Option String) (rid : Nat) : String :=
  if rid ∈ qualifiedIds then "qualified_passed_all_checks"
  else if rid ∈ removedFilterIds then (filterReason rid).getD "rule_filter_mismatch"
  else if rid ∈ removedDomainIds then
    sanitizeDomainReason ("domain_" ++ (domainReason rid).getD "unreachable")
  else if rid ∈ removedHubspotIds then "hubspot_duplicate_match"
  else (filterReason rid).getD "rule_filter_mismatch"

/-- `_build_row_taxonomy`: each batch row id mapped to its status and
single reason. -/
def buildRowTaxonomy (rowIds : List Nat)
    (qualifiedIds removedFilterIds removedDomainIds removedHubspotIds : Finset Nat)
    (filterReason domainReason : Nat → Option String) : List (Nat × String × String) :=
  rowIds.map (fun rid =>
    (rid,
     taxonomyStatus qualifiedIds removedFilterIds removedDomainIds removedHubspotIds rid,
     taxonomyReason qualifiedIds removedFilterIds removedDomainIds removedHubspotIds
       filterReason domainReason rid))

/-- The five record statuses of the output taxonomy. -/
def rowStatuses : List String :=
  ["qualified", "removed_filter", "removed_domain", "removed_hubspot", "removed_intra_dedupe"]

/-- C2: at completion every record of the batch gets exactly one status
out of the five, whatever the id sets contain: the assigned status is
always one of the five, the per-status id sets are pairwise disjoint,
and their union is the whole batch id set. -/
theorem c2_taxonomy_partition (rowIds : List Nat)
    (q rf rd rh : Finset Nat) :
    (∀ rid ∈ rowIds, taxonomyStatus q rf rd rh rid ∈ rowStatuses) ∧
    (∀ s1 ∈ rowStatuses, ∀ s2 ∈ rowStatuses, s1 ≠ s2 →
      Disjoint (rowIds.toFinset.filter (fun rid => taxonomyStatus q rf rd rh rid = s1))
        (rowIds.toFinset.filter (fun rid => taxonomyStatus q rf rd rh rid = s2))) ∧
    (rowStatuses.toFinset.biUnion
        (fun s => rowIds.toFinset.filter (fun rid => taxonomyStatus q rf rd rh rid = s)) =
      rowIds.toFinset) := by
  refine ⟨?_, ?_, ?_⟩
  · intro rid _
    unfold taxonomyStatus
    split_ifs <;> simp [rowStatuses]
  · intro s1 _ s2 _ hne
    rw [Finset.disjoint_left]
    intro x hx1 hx2
    rw [Finset.mem_filter] at hx1 hx2
    exact hne (hx1.2 ▸ hx2.2)
  · apply Finset.ext
    intro rid
    simp only [Finset.mem_biUnion, Finset.mem_filter]
    constructor
    · rintro ⟨s, -, h, -⟩
      exact h
    · intro h
      refine ⟨taxonomyStatus q rf rd rh rid, ?_, h, rfl⟩
      have : taxonomyStatus q rf rd rh rid ∈ rowStatuses := by
        unfold taxonomyStatus
        split_ifs <;> simp [rowStatuses]
      simpa using this

/-- Witness for C2 at a concrete batch: row ids 0..4 with each id set a
different singleton; id 4 (in no set) still lands in one of the five
statuses, and the `qualified`/`removed_filter` sets are disjoint. -/
theorem c2_taxonomy_partition_witness :
    (taxonomyStatus {0} {1} {2} {3} 4 ∈ rowStatuses) ∧
    Disjoint
      (([0, 1, 2, 3, 4] : List Nat).toFinset.filter
        (fun rid => taxonomyStatus {0} {1} {2} {3} rid = "qualified"))
      (([0, 1, 2, 3, 4] : List Nat).toFinset.filter
        (fun rid => taxonomyStatus {0} {1} {2} {3} rid = "removed_filter")) :=
  ⟨(c2_taxonomy_partition [0, 1, 2, 3, 4] {0} {1} {2} {3}).1 4 (by decide),
   (c2_taxonomy_partition [0, 1, 2, 3, 4] {0} {1} {2} {3}).2.1 "qualified" (by decide)
     "removed_filter" (by decide) (by decide)⟩

/-! ### Homepage signal extraction (`homepage_signals.py`)

The network fetch (`_fetch_homepage_excerpt`) and the BeautifulSoup/lxml
extraction of language tag, title, meta description, headings,
structured-data strings and body text are external effects; they are
modelled as a function returning the extracted `PageParts` (or `none`
with a failure label when every attempt fails).  The two US-signal
regular expressions (`US_PHONE_RE`, `US_STATE_ABBR_RE`, plus the
`united states` search) are modelled as one boolean predicate
parameter. -/

/-- Strip characters satisfying `p` from both ends (`str.strip(...)`). -/
def stripCharsBy (p : Char → Bool) (cs : List Char) : List Char :=
  ((cs.dropWhile p).reverse.dropWhile p).reverse

/-- `_normalize_domain` of `homepage_signals.py`. -/
def normalizeDomainH (value : String) : String :=
  let raw := strLower (strTrim value)
  if raw = "" then ""
  else
    let raw2 := stripLeadingTokens raw ["https://", "http://", "www."]
    let host1 : String := ⟨raw2.data.takeWhile (fun c => c != '/')⟩
    let host2 : String := ⟨host1.data.takeWhile (fun c => c != ':')⟩
    ⟨stripCharsBy (fun c => c = '.') (trimChars host2.data)⟩

/-- Maximal runs of characters NOT satisfying the separator predicate
`p` (used for `str.split()`, `re.findall(r"\S+", ...)` and the
normalize-then-collapse steps). -/
def splitRunsBy (p : Char → Bool) (cs : List Char) : List (List Char) :=
  (cs.foldr (fun c acc =>
    if p c then [] :: acc
    else
      match acc with
      | [] => [[c]]
      | w :: ws => (c :: w) :: ws) []).filter (fun w => !w.isEmpty)

/-- `_first_words`: the first `limit` whitespace-separated words. -/
def firstWords (text : String) (limit : Nat) : String :=
  let words := (splitRunsBy isSpaceChar text.data).map (fun w => (⟨w⟩ : String))
  if words = [] then "" else strJoin " " (words.take limit)

def isLowerAlnum (c : Char) : Bool := isLowerAlphaChar c || isDigitChar c

/-- `_normalize_match_text`: lowercase, replace runs of non-alphanumerics
by single spaces, collapse whitespace and strip.  The net effect is the
alphanumeric runs of the lowercased text joined by single spaces. -/
def normalizeMatchText (text : String) : String :=
  strJoin " " ((splitRunsBy (fun c => !isLowerAlnum c) (strLower text).data).map
    (fun w => (⟨w⟩ : String)))

/-- Contiguous-sublist test on character lists. -/
def listIsInfixOf (needle : List Char) : List Char → Bool
  | [] => needle.isEmpty
  | c :: rest => needle.isPrefixOf (c :: rest) || listIsInfixOf needle rest

/-- Substring test (`needle in hay`). -/
def strInfix (needle hay : String) : Bool := listIsInfixOf needle.data hay.data

def isAlnumCharA (c : Char) : Bool :=
  ('a' ≤ c && c ≤ 'z') || ('A' ≤ c && c ≤ 'Z') || ('0' ≤ c && c ≤ '9')

/-- The scan loop of `_word_prefix_in`: find an occurrence of
`target = " " ++ prefix` whose following character is the end of text, a
space, or alphanumeric. -/
def wordPrefixGo (target : List Char) : List Char → Bool
  | [] => false
  | c :: rest =>
    if target.isPrefixOf (c :: rest) then
      match (c :: rest).drop target.length with
      | [] => true
      | d :: _ => if d = ' ' || isAlnumCharA d then true else wordPrefixGo target rest
    else wordPrefixGo target rest

/-- `_word_prefix_in`. -/
def wordPrefixIn (pfx : String) (padded : String) : Bool :=
  wordPrefixGo (' ' :: pfx.data) padded.data

/-- `_STEM_SUFFIXES`. -/
def stemSuffixes : List String :=
  ["ing", "tion", "ment", "ness", "ity", "ive", "ous", "ful", "able", "ible",
   "ated", "ized", "ise", "ize"]

/-- `str.endswith`. -/
def strEndsWith (s p : String) : Bool := p.data.reverse.isPrefixOf s.data.reverse

/-- Drop the last `n` characters (`s[:-n]`). -/
def strDropRightN (s : String) (n : Nat) : String := ⟨s.data.take (s.data.length - n)⟩

/-- The per-keyword cascade of `_keyword_hits` for one normalized token:
exact word-boundary match, multi-word phrase with plural/singular last
word, single-word plural/singular variants, word-prefix match, and stem
suffix stripping. -/
def keywordTokenHit (hay padded token : String) : Bool :=
  if strInfix (" " ++ token ++ " ") padded then true
  else
    let words := (splitRunsBy isSpaceChar token.data).map (fun w => (⟨w⟩ : String))
    let multiHit :=
      if 2 ≤ words.length then
        if strInfix token hay then true
        else
          let lastW := words.getLastD ""
          let pre := strJoin " " words.dropLast
          let altLast :=
            if strEndsWith lastW "y" then strDropRightN lastW 1 ++ "ies"
            else if strEndsWith lastW "s" then strDropRightN lastW 1
            else lastW ++ "s"
          strInfix (pre ++ " " ++ altLast) hay
      else false
    if multiHit then true
    else if 4 ≤ token.data.length then
      let singular :=
        if strEndsWith token "ies" then strDropRightN token 3 ++ "y"
        else if strEndsWith token "s" then strDropRightN token 1
        else token
      let pluralS := singular ++ "s"
      let variantHit :=
        strInfix (" " ++ singular ++ " ") padded ||
          strInfix (" " ++ pluralS ++ " ") padded ||
          (if strEndsWith singular "y" then
            strInfix (" " ++ strDropRightN singular 1 ++ "ies" ++ " ") padded
          else false)
      if variantHit then true
      else if 5 ≤ token.data.length && wordPrefixIn token padded then true
      else
        let stem :=
          match stemSuffixes.find? (fun suf =>
            strEndsWith token suf && suf.data.length + 3 < token.data.length) with
          | some suf => strDropRightN token suf.data.length
          | none => token
        stem != token && 4 ≤ stem.data.length && wordPrefixIn stem padded
    else false

/-- `_keyword_hits`. -/
def keywordHits (haystackLower : String) (keywords : List String) : List String :=
  let hay := normalizeMatchText haystackLower
  if hay = "" then []
  else
    let padded := " " ++ hay ++ " "
    keywords.filterMap (fun keyword =>
      let token := normalizeMatchText keyword
      if token = "" then none
      else if keywordTokenHit hay padded token then some keyword else none)

/-- `B2B_POSITIVE_KEYWORDS`. -/
def b2bPositiveKeywords : List String :=
  ["platform", "api", "integration", "enterprise", "teams", "dashboard",
   "analytics", "workflow", "compliance", "soc", "deploy", "infrastructure",
   "saas", "b2b", "developer", "automation", "data platform", "security",
   "governance", "knowledge base", "documentation", "pricing", "book demo",
   "request demo", "contact sales", "for business", "schedule demo",
   "get started", "solutions", "customers", "case study", "case studies",
   "roi", "onboarding", "client success", "customer success",
   "managed services", "professional services", "consulting",
   "implementation", "white paper", "webinar", "cloud", "devops",
   "machine learning", "artificial intelligence", "crm", "erp",
   "supply chain", "logistics", "fintech", "healthtech", "cybersecurity",
   "single sign on", "sso", "oauth", "scalable", "real time", "open source"]

/-- `DISQUALIFY_SIGNAL_KEYWORDS`. -/
def disqualifySignalKeywords : List String :=
  ["shop now", "add to cart", "free shipping", "download the app", "recipes",
   "portfolio site", "personal blog", "coming soon", "parked domain",
   "this domain is for sale", "wedding photography", "fashion store",
   "recipe blog", "buy now", "checkout", "shopping cart", "order now",
   "coupon code", "promo code", "return policy", "track your order",
   "baby registry", "gift card", "clearance sale", "daily deals",
   "flash sale", "handmade jewelry", "pet supplies", "beauty products",
   "dating", "horoscope", "gambling", "casino", "forex trading",
   "cryptocurrency trading", "weight loss", "diet pills", "domain parking",
   "under construction", "site not found", "403 forbidden"]

/-- `NON_USD_CURRENCY_SYMBOLS`. -/
def nonUsdCurrencySymbols : List Char :=
  ['€', '£', '¥', '₹', '₩', '₽', '₺',
   '₫', '₪']

def isWordChar (c : Char) : Bool := isAlnumCharA c || c = '_'

/-- Scan for `\busd\b` (case already lowered by the caller). -/
def containsWordUsdGo : Option Char → List Char → Bool
  | prev, 'u' :: 's' :: 'd' :: rest =>
    if (match prev with | none => true | some p => !isWordChar p) &&
        (match rest with | [] => true | c :: _ => !isWordChar c) then true
    else containsWordUsdGo (some 'u') ('s' :: 'd' :: rest)
  | _, c :: rest => containsWordUsdGo (some c) rest
  | _, [] => false

/-- `re.search(r"\busd\b", haystack, re.IGNORECASE)` as a boolean. -/
def containsWordUsd (s : String) : Bool := containsWordUsdGo none (strLower s).data

/-- Ascending insertion sort on characters by code point. -/
def insertChar (c : Char) : List Char → List Char
  | [] => [c]
  | d :: ds => if d < c then d :: insertChar c ds else c :: d :: ds

def sortChars (l : List Char) : List Char := l.foldr insertChar []

/-- `_currency_signal`: (signal label, disqualify flag). -/
def currencySignal (text : String) : String × Bool :=
  let hasUsd := strHasChar text '$' || containsWordUsd text
  let nonUsdHits := nonUsdCurrencySymbols.filter (fun sym => text.data.contains sym)
  if !nonUsdHits.isEmpty && hasUsd then
    ("mixed:" ++ (⟨sortChars nonUsdHits⟩ : String), false)
  else if !nonUsdHits.isEmpty && !hasUsd then
    ("non_usd_only:" ++ (⟨sortChars nonUsdHits⟩ : String), true)
  else if hasUsd then ("usd_present", false)
  else ("none", false)

def isReasonChar (c : Char) : Bool := isLowerAlnum c || c = '_'

/-- Replace each maximal run of characters satisfying `p` by one `sep`. -/
def subRunsGo (p : Char → Bool) (sep : Char) (inRun : Bool) : List Char → List Char
  | [] => []
  | c :: cs =>
    if p c then
      if inRun then subRunsGo p sep true cs else sep :: subRunsGo p sep true cs
    else c :: subRunsGo p sep false cs

/-- `_normalize_reason`: lowercase/strip, collapse non-`[a-z0-9_]` runs to
`_`, strip leading and trailing underscores. -/
def normalizeReason (reason : String) : String :=
  let clean := strLower (strTrim reason)
  ⟨stripCharsBy (fun c => c = '_') (subRunsGo (fun c => !isReasonChar c) '_' false clean.data)⟩

/-- The page signals extracted from fetched HTML by BeautifulSoup before
scoring begins (`html_lang`, title, meta description, heading text,
structured-data text, body text). -/
structure PageParts where
  htmlLang : String
  metaTitle : String
  metaDescription : String
  headingText : String
  structuredText : String
  bodyText : String
deriving Repr, DecidableEq

/-- Result dict of `_compute_homepage_signals` /
`collect_domain_homepage_signals`. -/
structure HomepageResult where
  domain : String
  html_lang : String
  currency_signals : String
  meta_title : String
  meta_description : String
  b2b_score : Nat
  us_signals : Bool
  website_keywords_match : Bool
  website_exclude_hits : List String
  homepage_status : String
  homepage_disqualified : Bool
deriving Repr, DecidableEq

/-- Accumulated disqualification state (`hard_disqualify_reasons`,
`soft_reasons`, `soft_strikes`). -/
structure StrikeState where
  hardReasons : List String
  softReasons : List String
  softStrikes : Nat
deriving Repr, DecidableEq

/-- `add_soft_reason`. -/
def addSoftReason (st : StrikeState) (reason : String) (weight : Nat) : StrikeState :=
  let token := strTrim reason
  if token = "" then st
  else { st with softReasons := st.softReasons ++ [token],
                 softStrikes := st.softStrikes + max 1 weight }

/-- Policy step 1: non-English language tag → one soft strike. -/
def hsLangStage (htmlLang : String) (st : StrikeState) : StrikeState :=
  if htmlLang ≠ "" ∧ ¬strStartsWith htmlLang "en" then
    addSoftReason st "html_lang_not_en" 1
  else st

/-- Policy step 2: non-USD currency, no US signal, zero b2b score → one
soft strike. -/
def hsCurrencyStage (currencyDisqualify usSignals : Bool) (b2bScore : Nat)
    (st : StrikeState) : StrikeState :=
  if currencyDisqualify ∧ ¬usSignals ∧ b2bScore = 0 then
    addSoftReason st "non_usd_currency_without_usd" 1
  else st

/-- Policy steps 3/4: strong consumer signature with no b2b evidence →
hard disqualification; any other positive consumer score → one soft
strike. -/
def hsConsumerStage (b2bScore consumerScore : Nat) (disqualifyHits : List String)
    (st : StrikeState) : StrikeState :=
  if 2 ≤ consumerScore ∧ b2bScore = 0 then
    { st with hardReasons := st.hardReasons ++
        ["consumer_signal_" ++ normalizeReason (disqualifyHits.headD "")] }
  else if 0 < consumerScore then
    addSoftReason st ("consumer_signal_" ++ normalizeReason (disqualifyHits.headD "")) 1
  else st

/-- Policy step 5: user exclusion keyword hit → hard disqualification. -/
def hsExcludeStage (websiteExcludeHits : List String) (st : StrikeState) : StrikeState :=
  if websiteExcludeHits ≠ [] then
    { st with hardReasons := st.hardReasons ++
        ["exclude_keyword_" ++ normalizeReason (websiteExcludeHits.headD "")] }
  else st

/-- Policy step 6: configured keywords with no match → two soft strikes. -/
def hsKeywordStage (websiteKeywords websiteHits : List String) (st : StrikeState) :
    StrikeState :=
  if websiteKeywords ≠ [] ∧ websiteHits = [] then
    addSoftReason st "website_keywords_no_match" 2
  else st

/-- Policy step 7: no keywords configured and both scores zero → one
soft strike. -/
def hsLimitedStage (websiteKeywords : List String) (b2bScore consumerScore : Nat)
    (st : StrikeState) : StrikeState :=
  if websiteKeywords = [] ∧ b2bScore = 0 ∧ consumerScore = 0 then
    addSoftReason st "limited_b2b_signals" 1
  else st

/-- The ordered disqualification policy of `_compute_homepage_signals`
(the statement sequence between the score computation and the status
construction). -/
def homepageStrikes (htmlLang : String) (currencyDisqualify usSignals : Bool)
    (b2bScore consumerScore : Nat)
    (disqualifyHits websiteHits websiteExcludeHits websiteKeywords : List String) :
    StrikeState :=
  hsLimitedStage websiteKeywords b2bScore consumerScore
    (hsKeywordStage websiteKeywords websiteHits
      (hsExcludeStage websiteExcludeHits
        (hsConsumerStage b2bScore consumerScore disqualifyHits
          (hsCurrencyStage currencyDisqualify usSignals b2bScore
            (hsLangStage htmlLang ⟨[], [], 0⟩)))))

def softDisqualifyStrikeThreshold : Nat := 3

/-- The final status construction of `_compute_homepage_signals`:
(status string, disqualified flag). -/
def homepageStatusOf (st : StrikeState) : String × Bool :=
  if st.hardReasons ≠ [] then
    ("disqualified:" ++ strJoin "," st.hardReasons, true)
  else if softDisqualifyStrikeThreshold ≤ st.softStrikes then
    ("disqualified:soft_strikes_" ++ toString st.softStrikes ++ ":" ++
      (if st.softReasons ≠ [] then strJoin "," st.softReasons else "soft_signal_stack"), true)
  else if st.softReasons ≠ [] then
    ("inconclusive:soft_strikes_" ++ toString st.softStrikes ++ ":" ++
      strJoin "," st.softReasons, false)
  else ("eligible", false)

/-- `_compute_homepage_signals`, with the BeautifulSoup extraction results
supplied as `PageParts` and the US regex signals as a predicate. -/
def computeHomepageSignalsFromParts (usSignalsOf : String → Bool) (domain : String)
    (parts : PageParts) (websiteKeywords websiteExcludeKeywords : List String) :
    HomepageResult :=
  let first3000 := firstWords parts.bodyText 3000
  let b2bText := strTrim (strJoin " " [parts.metaTitle, parts.metaDescription,
    parts.headingText, parts.structuredText, first3000])
  let signalText := strTrim (strJoin " " [parts.metaTitle, parts.metaDescription,
    parts.headingText, parts.structuredText, parts.bodyText])
  let b2bHits := keywordHits (strLower b2bText) b2bPositiveKeywords
  let disqualifyHits := keywordHits (strLower signalText) disqualifySignalKeywords
  let websiteHits := keywordHits (strLower signalText) websiteKeywords
  let websiteExcludeHits :=
    if websiteExcludeKeywords ≠ [] then
      keywordHits (strLower signalText) websiteExcludeKeywords
    else []
  let cs := currencySignal signalText
  let usSig := usSignalsOf signalText
  let b2bScore := ((b2bHits.map strLower).dedup).length
  let consumerScore := ((disqualifyHits.map strLower).dedup).length
  let st := homepageStrikes parts.htmlLang cs.2 usSig b2bScore consumerScore
    disqualifyHits websiteHits websiteExcludeHits websiteKeywords
  let sb := homepageStatusOf st
  { domain := domain, html_lang := parts.htmlLang, currency_signals := cs.1,
    meta_title := parts.metaTitle, meta_description := parts.metaDescription,
    b2b_score := b2bScore, us_signals := usSig,
    website_keywords_match := if websiteKeywords = [] then true else !websiteHits.isEmpty,
    website_exclude_hits := websiteExcludeHits,
    homepage_status := sb.1, homepage_disqualified := sb.2 }

/-- `_empty_signal_result`. -/
def emptySignalResult (domain : String) : HomepageResult :=
  { domain := domain, html_lang := "", currency_signals := "none", meta_title := "",
    meta_description := "", b2b_score := 0, us_signals := false,
    website_keywords_match := true, website_exclude_hits := [],
    homepage_status := "inconclusive:fetch_failed", homepage_disqualified := false }

/-- `collect_domain_homepage_signals`.  `fetch` models
`_fetch_homepage_excerpt` (all direct URL attempts plus the
IP-with-Host-header fallback) composed with the HTML parse: `none` with
a failure label when no attempt yields a non-empty body, otherwise the
extracted page parts. -/
def collectDomainHomepageSignals (fetch : String → Option PageParts × String)
    (usSignalsOf : String → Bool) (domain : String)
    (websiteKeywords websiteExcludeKeywords : List String) : HomepageResult :=
  let clean := normalizeDomainH domain
  if clean = "" ∨ ¬strHasChar clean '.' then
    { emptySignalResult domain with
        homepage_status := "disqualified:invalid_domain",
        homepage_disqualified := true,
        website_keywords_match := false }
  else
    match fetch clean with
    | (none, fetchStatus) =>
      { emptySignalResult domain with
          homepage_status := "inconclusive:" ++ fetchStatus,
          homepage_disqualified := false }
    | (some parts, _) =>
      computeHomepageSignalsFromParts usSignalsOf domain parts
        websiteKeywords websiteExcludeKeywords

/-! ### Support lemmas for the homepage disqualification policy -/

theorem strData_append (a b : String) : (a ++ b).data = a.data ++ b.data := by
  cases a
  cases b
  rfl

theorem subRunsGo_mem (p : Char → Bool) (sep : Char) (b : Bool) (l : List Char) :
    ∀ c ∈ subRunsGo p sep b l, c = sep ∨ p c = false := by
  induction l generalizing b with
  | nil => simp [subRunsGo]
  | cons d ds ih =>
    intro c hc
    unfold subRunsGo at hc
    by_cases hd : p d
    · simp only [hd, if_true] at hc
      by_cases hb : b
      · simp only [hb, if_true] at hc
        exact ih true c hc
      · simp only [hb, if_false] at hc
        rcases List.mem_cons.mp hc with h | h
        · exact Or.inl h
        · exact ih true c h
    · simp only [hd, if_false] at hc
      rcases List.mem_cons.mp hc with h | h
      · exact Or.inr (h ▸ (by simpa using hd))
      · exact ih false c h

theorem stripCharsBy_mem (q : Char → Bool) (l : List Char) :
    ∀ c ∈ stripCharsBy q l, c ∈ l := by
  intro c hc
  unfold stripCharsBy at hc
  rw [List.mem_reverse] at hc
  have h1 : c ∈ (l.dropWhile q).reverse := (List.dropWhile_sublist _).mem hc
  rw [List.mem_reverse] at h1
  exact (List.dropWhile_sublist _).mem h1

theorem normalizeReason_chars (s : String) :
    ∀ c ∈ (normalizeReason s).data, isReasonChar c = true := by
  intro c hc
  have h1 : c ∈ subRunsGo (fun c => !isReasonChar c) '_' false (strLower (strTrim s)).data :=
    stripCharsBy_mem _ _ c hc
  rcases subRunsGo_mem _ '_' false _ c h1 with h | h
  · subst h
    rfl
  · simpa using h

theorem reasonChar_not_space (c : Char) (h : isReasonChar c = true) :
    isSpaceChar c = false := by
  by_cases h1 : c = ' '
  · exact absurd (h1 ▸ h) (by decide)
  by_cases h2 : c = '\t'
  · exact absurd (h2 ▸ h) (by decide)
  by_cases h3 : c = '\n'
  · exact absurd (h3 ▸ h) (by decide)
  by_cases h4 : c = '\r'
  · exact absurd (h4 ▸ h) (by decide)
  by_cases h5 : c = '\x0b'
  · exact absurd (h5 ▸ h) (by decide)
  by_cases h6 : c = '\x0c'
  · exact absurd (h6 ▸ h) (by decide)
  simp [isSpaceChar, h1, h2, h3, h4, h5, h6]

theorem dropWhile_eq_self_of_not (p : Char → Bool) (l : List Char)
    (h : ∀ c ∈ l, p c = false) : l.dropWhile p = l := by
  cases l with
  | nil => rfl
  | cons c cs => simp [List.dropWhile, h c (by simp)]

theorem strTrim_eq_self (s : String) (h : ∀ c ∈ s.data, isSpaceChar c = false) :
    strTrim s = s := by
  cases s with
  | mk l =>
    show (⟨trimChars l⟩ : String) = ⟨l⟩
    congr 1
    unfold trimChars
    rw [dropWhile_eq_self_of_not _ _ h]
    rw [dropWhile_eq_self_of_not, List.reverse_reverse]
    intro c hc
    exact h c (by simpa using hc)

theorem consumerToken_trim (y : String) :
    strTrim ("consumer_signal_" ++ normalizeReason y) = "consumer_signal_" ++ normalizeReason y := by
  apply strTrim_eq_self
  intro c hc
  rw [strData_append] at hc
  rcases List.mem_append.mp hc with h | h
  · have hall : ∀ c ∈ ("consumer_signal_" : String).data, isReasonChar c = true := by decide
    exact reasonChar_not_space c (hall c h)
  · exact reasonChar_not_space c (normalizeReason_chars y c h)

theorem consumerToken_ne_empty (y : String) :
    ("consumer_signal_" ++ normalizeReason y) ≠ "" := by
  intro h
  have hd : ("consumer_signal_" ++ normalizeReason y).data = [] := by
    rw [h]
  rw [strData_append] at hd
  rcases List.append_eq_nil.mp hd with ⟨h1, -⟩
  exact absurd h1 (by decide)

theorem isPrefixOf_append_self (l m : List Char) : l.isPrefixOf (l ++ m) = true := by
  induction l with
  | nil => simp [List.isPrefixOf]
  | cons c cs ih => simp [List.isPrefixOf, List.cons_append, ih]

theorem isPrefixOf_append_of_length_le (p q m : List Char) (h : p.length ≤ q.length) :
    p.isPrefixOf (q ++ m) = p.isPrefixOf q := by
  induction p generalizing q with
  | nil => simp [List.isPrefixOf]
  | cons a as ih =>
    cases q with
    | nil => simp at h
    | cons b bs =>
      simp only [List.cons_append, List.isPrefixOf, List.append_eq]
      rw [ih bs (by simpa using h)]

theorem consumer_prefixed (x : String) :
    strStartsWith ("consumer_signal_" ++ x) "consumer_signal_" = true := by
  unfold strStartsWith
  rw [strData_append]
  exact isPrefixOf_append_self _ _

theorem exclude_not_consumer_prefixed (x : String) :
    strStartsWith ("exclude_keyword_" ++ x) "consumer_signal_" = false := by
  unfold strStartsWith
  rw [strData_append, isPrefixOf_append_of_length_le _ _ _ (by decide)]
  decide

/-- Generic computed form of `add_soft_reason` when the reason neither
trims nor is empty. -/
theorem addSoftReason_spec (st : StrikeState) (r : String) (w : Nat)
    (h : strTrim r = r) (h2 : r ≠ "") :
    addSoftReason st r w =
      ⟨st.hardReasons, st.softReasons ++ [r], st.softStrikes + max 1 w⟩ := by
  unfold addSoftReason
  rw [h]
  simp [h2]

theorem addSoft_html (st : StrikeState) :
    addSoftReason st "html_lang_not_en" 1 =
      ⟨st.hardReasons, st.softReasons ++ ["html_lang_not_en"], st.softStrikes + 1⟩ :=
  addSoftReason_spec st _ 1 (by decide) (by decide)

theorem addSoft_currency (st : StrikeState) :
    addSoftReason st "non_usd_currency_without_usd" 1 =
      ⟨st.hardReasons, st.softReasons ++ ["non_usd_currency_without_usd"], st.softStrikes + 1⟩ :=
  addSoftReason_spec st _ 1 (by decide) (by decide)

theorem addSoft_kwNoMatch (st : StrikeState) :
    addSoftReason st "website_keywords_no_match" 2 =
      ⟨st.hardReasons, st.softReasons ++ ["website_keywords_no_match"], st.softStrikes + 2⟩ :=
  addSoftReason_spec st _ 2 (by decide) (by decide)

theorem addSoft_limited (st : StrikeState) :
    addSoftReason st "limited_b2b_signals" 1 =
      ⟨st.hardReasons, st.softReasons ++ ["limited_b2b_signals"], st.softStrikes + 1⟩ :=
  addSoftReason_spec st _ 1 (by decide) (by decide)

theorem addSoft_consumer (st : StrikeState) (y : String) :
    addSoftReason st ("consumer_signal_" ++ normalizeReason y) 1 =
      ⟨st.hardReasons, st.softReasons ++ ["consumer_signal_" ++ normalizeReason y],
        st.softStrikes + 1⟩ :=
  addSoftReason_spec st _ 1 (consumerToken_trim y) (consumerToken_ne_empty y)

theorem html_not_consumer :
    strStartsWith "html_lang_not_en" "consumer_signal_" = false := by decide

theorem currency_not_consumer :
    strStartsWith "non_usd_currency_without_usd" "consumer_signal_" = false := by decide

theorem kwnm_not_consumer :
    strStartsWith "website_keywords_no_match" "consumer_signal_" = false := by decide

theorem limited_not_consumer :
    strStartsWith "limited_b2b_signals" "consumer_signal_" = false := by decide

theorem addSoftReason_hardReasons (st : StrikeState) (r : String) (w : Nat) :
    (addSoftReason st r w).hardReasons = st.hardReasons := by
  unfold addSoftReason
  by_cases h : strTrim r = "" <;> simp [h]

theorem softC_addSoft_const (st : StrikeState) (k : String) (w : Nat)
    (htrim : strTrim k = k) (hne : k ≠ "")
    (hk : strStartsWith k "consumer_signal_" = false) :
    (∃ r ∈ (addSoftReason st k w).softReasons, strStartsWith r "consumer_signal_" = true) ↔
      (∃ r ∈ st.softReasons, strStartsWith r "consumer_signal_" = true) := by
  rw [addSoftReason_spec st k w htrim hne]
  simp [or_and_right, exists_or, hk]

theorem hsLangStage_hardReasons (htmlLang : String) (st : StrikeState) :
    (hsLangStage htmlLang st).hardReasons = st.hardReasons := by
  unfold hsLangStage
  split
  · rw [addSoftReason_hardReasons]
  · rfl

theorem hsCurrencyStage_hardReasons (cd us : Bool) (bs : Nat) (st : StrikeState) :
    (hsCurrencyStage cd us bs st).hardReasons = st.hardReasons := by
  unfold hsCurrencyStage
  split
  · rw [addSoftReason_hardReasons]
  · rfl

theorem hsKeywordStage_hardReasons (wk wh : List String) (st : StrikeState) :
    (hsKeywordStage wk wh st).hardReasons = st.hardReasons := by
  unfold hsKeywordStage
  split
  · rw [addSoftReason_hardReasons]
  · rfl

theorem hsLimitedStage_hardReasons (wk : List String) (bs cs : Nat) (st : StrikeState) :
    (hsLimitedStage wk bs cs st).hardReasons = st.hardReasons := by
  unfold hsLimitedStage
  split
  · rw [addSoftReason_hardReasons]
  · rfl

theorem hsLangStage_softC (htmlLang : String) (st : StrikeState) :
    (∃ r ∈ (hsLangStage htmlLang st).softReasons, strStartsWith r "consumer_signal_" = true) ↔
      (∃ r ∈ st.softReasons, strStartsWith r "consumer_signal_" = true) := by
  unfold hsLangStage
  split
  · exact softC_addSoft_const st _ 1 (by decide) (by decide) html_not_consumer
  · exact Iff.rfl

theorem hsCurrencyStage_softC (cd us : Bool) (bs : Nat) (st : StrikeState) :
    (∃ r ∈ (hsCurrencyStage cd us bs st).softReasons, strStartsWith r "consumer_signal_" = true) ↔
      (∃ r ∈ st.softReasons, strStartsWith r "consumer_signal_" = true) := by
  unfold hsCurrencyStage
  split
  · exact softC_addSoft_const st _ 1 (by decide) (by decide) currency_not_consumer
  · exact Iff.rfl

theorem hsKeywordStage_softC (wk wh : List String) (st : StrikeState) :
    (∃ r ∈ (hsKeywordStage wk wh st).softReasons, strStartsWith r "consumer_signal_" = true) ↔
      (∃ r ∈ st.softReasons, strStartsWith r "consumer_signal_" = true) := by
  unfold hsKeywordStage
  split
  · exact softC_addSoft_const st _ 2 (by decide) (by decide) kwnm_not_consumer
  · exact Iff.rfl

theorem hsLimitedStage_softC (wk : List String) (bs cs : Nat) (st : StrikeState) :
    (∃ r ∈ (hsLimitedStage wk bs cs st).softReasons, strStartsWith r "consumer_signal_" = true) ↔
      (∃ r ∈ st.softReasons, strStartsWith r "consumer_signal_" = true) := by
  unfold hsLimitedStage
  split
  · exact softC_addSoft_const st _ 1 (by decide) (by decide) limited_not_consumer
  · exact Iff.rfl

theorem hsExcludeStage_softReasons (weh : List String) (st : StrikeState) :
    (hsExcludeStage weh st).softReasons = st.softReasons := by
  unfold hsExcludeStage
  split
  · rfl
  · rfl

theorem hsExcludeStage_hardC (weh : List String) (st : StrikeState) :
    (∃ r ∈ (hsExcludeStage weh st).hardReasons, strStartsWith r "consumer_signal_" = true) ↔
      (∃ r ∈ st.hardReasons, strStartsWith r "consumer_signal_" = true) := by
  unfold hsExcludeStage
  split
  · simp [or_and_right, exists_or, exclude_not_consumer_prefixed]
  · exact Iff.rfl

theorem hsConsumerStage_hardC (bs cs : Nat) (dh : List String) (st : StrikeState)
    (h0 : st.hardReasons = []) :
    (∃ r ∈ (hsConsumerStage bs cs dh st).hardReasons, strStartsWith r "consumer_signal_" = true) ↔
      (2 ≤ cs ∧ bs = 0) := by
  unfold hsConsumerStage
  split_ifs with h1 h2
  · simp [h0, consumer_prefixed, h1]
  · simp [addSoftReason_hardReasons, h0, h1]
  · simp [h0, h1]

theorem hsConsumerStage_softC (bs cs : Nat) (dh : List String) (st : StrikeState)
    (hsoft : ¬∃ r ∈ st.softReasons, strStartsWith r "consumer_signal_" = true) :
    (∃ r ∈ (hsConsumerStage bs cs dh st).softReasons, strStartsWith r "consumer_signal_" = true) ↔
      (0 < cs ∧ ¬(2 ≤ cs ∧ bs = 0)) := by
  unfold hsConsumerStage
  split_ifs with h1 h2
  · constructor
    · intro h
      exact absurd h hsoft
    · rintro ⟨-, hn⟩
      exact absurd h1 hn
  · rw [addSoft_consumer]
    constructor
    · intro _
      exact ⟨h2, h1⟩
    · intro _
      exact ⟨"consumer_signal_" ++ normalizeReason (dh.headD ""), by simp,
        consumer_prefixed _⟩
  · constructor
    · intro h
      exact absurd h hsoft
    · rintro ⟨hpos, -⟩
      exact absurd hpos h2

set_option maxHeartbeats 2000000 in
/-- C5 (amended): in the homepage disqualification policy a hard
consumer-signal disqualification is produced exactly when
consumerScore ≥ 2 and b2bScore = 0, and a consumer-signal SOFT strike is
produced exactly when consumerScore > 0 and the hard condition does not
hold (that is, consumerScore = 1, or consumerScore ≥ 2 with
b2bScore > 0).  A homepage text containing "add to cart" and "checkout"
(two distinct consumer hits) with zero b2b hits yields the hard status
`disqualified:consumer_signal_add_to_cart`. -/
theorem c5_consumer_policy :
    (∀ (htmlLang : String) (currencyDisqualify usSignals : Bool)
        (b2bScore consumerScore : Nat)
        (disqualifyHits websiteHits websiteExcludeHits websiteKeywords : List String),
      ((∃ r ∈ (homepageStrikes htmlLang currencyDisqualify usSignals b2bScore consumerScore
            disqualifyHits websiteHits websiteExcludeHits websiteKeywords).hardReasons,
          strStartsWith r "consumer_signal_" = true) ↔
        (2 ≤ consumerScore ∧ b2bScore = 0)) ∧
      ((∃ r ∈ (homepageStrikes htmlLang currencyDisqualify usSignals b2bScore consumerScore
            disqualifyHits websiteHits websiteExcludeHits websiteKeywords).softReasons,
          strStartsWith r "consumer_signal_" = true) ↔
        (0 < consumerScore ∧ ¬(2 ≤ consumerScore ∧ b2bScore = 0)))) ∧
    (computeHomepageSignalsFromParts (fun _ => false) "shop.example"
        ⟨"", "", "", "", "", "add to cart and checkout here"⟩ [] []).homepage_status =
      "disqualified:consumer_signal_add_to_cart" ∧
    (computeHomepageSignalsFromParts (fun _ => false) "shop.example"
        ⟨"", "", "", "", "", "add to cart and checkout here"⟩ [] []).homepage_disqualified =
      true := by
  refine ⟨?_, by decide, by decide⟩
  intro htmlLang currencyDisqualify usSignals b2bScore consumerScore dh wh weh wk
  unfold homepageStrikes
  constructor
  · rw [show ∀ st, (hsLimitedStage wk b2bScore consumerScore st).hardReasons = st.hardReasons
        from fun st => hsLimitedStage_hardReasons wk b2bScore consumerScore st]
    rw [hsKeywordStage_hardReasons, hsExcludeStage_hardC]
    apply hsConsumerStage_hardC
    rw [hsCurrencyStage_hardReasons, hsLangStage_hardReasons]
  · rw [hsLimitedStage_softC, hsKeywordStage_softC, hsExcludeStage_softReasons]
    apply hsConsumerStage_softC
    rw [hsCurrencyStage_softC, hsLangStage_softC]
    simp

set_option maxHeartbeats 2000000 in
/-- C5 counterexample: a homepage text containing "add to cart",
"checkout" (consumerScore = 2) and "platform" (b2bScore = 1) receives a
consumer-signal soft strike, although consumerScore is NOT strictly
between 0 and 2 — the claim that one soft strike is produced exactly
when consumerScore equals 1 fails on the code. -/
theorem c5_consumer_policy_counterexample :
    ((keywordHits (strLower "add to cart and checkout platform")
        disqualifySignalKeywords).map strLower).dedup.length = 2 ∧
    (computeHomepageSignalsFromParts (fun _ => false) "shop.example"
        ⟨"", "", "", "", "", "add to cart and checkout platform"⟩ [] []).b2b_score = 1 ∧
    (computeHomepageSignalsFromParts (fun _ => false) "shop.example"
        ⟨"", "", "", "", "", "add to cart and checkout platform"⟩ [] []).homepage_status =
      "inconclusive:soft_strikes_1:consumer_signal_add_to_cart" ∧
    (computeHomepageSignalsFromParts (fun _ => false) "shop.example"
        ⟨"", "", "", "", "", "add to cart and checkout platform"⟩ [] []).homepage_disqualified =
      false := by
  exact ⟨by decide, by decide, by decide, by decide⟩

/-- Witness for C5: the hard consumer reason is present at
consumerScore = 2, b2bScore = 0 with hit list `["add to cart"]`. -/
theorem c5_consumer_policy_witness :
    ∃ r ∈ (homepageStrikes "" false false 0 2 ["add to cart"] [] [] []).hardReasons,
      strStartsWith r "consumer_signal_" = true :=
  ((c5_consumer_policy.1 "" false false 0 2 ["add to cart"] [] [] []).1).mpr (by decide)

/-- C6: whenever the homepage fetch totally fails (the fetch returns no
body, only a failure label) on a domain that normalizes to a valid shape,
the extractor returns `inconclusive:<failure-kind>` with the disqualified
flag false — a fetch failure never hard-disqualifies. -/
theorem c6_fetch_failure_inconclusive (fetch : String → Option PageParts × String)
    (usSignalsOf : String → Bool) (domain : String)
    (websiteKeywords websiteExcludeKeywords : List String) (failKind : String)
    (hvalid : ¬(normalizeDomainH domain = "" ∨ ¬strHasChar (normalizeDomainH domain) '.'))
    (hfail : fetch (normalizeDomainH domain) = (none, failKind)) :
    (collectDomainHomepageSignals fetch usSignalsOf domain websiteKeywords
        websiteExcludeKeywords).homepage_status = "inconclusive:" ++ failKind ∧
    (collectDomainHomepageSignals fetch usSignalsOf domain websiteKeywords
        websiteExcludeKeywords).homepage_disqualified = false := by
  unfold collectDomainHomepageSignals
  rw [if_neg hvalid, hfail]
  exact ⟨rfl, rfl⟩

/-- Witness for C6: a timeout on `example.com` yields
`inconclusive:fetch_timeout` and no disqualification. -/
theorem c6_fetch_failure_inconclusive_witness :
    (collectDomainHomepageSignals (fun _ => (none, "fetch_timeout")) (fun _ => false)
        "example.com" [] []).homepage_status = "inconclusive:fetch_timeout" ∧
    (collectDomainHomepageSignals (fun _ => (none, "fetch_timeout")) (fun _ => false)
        "example.com" [] []).homepage_disqualified = false :=
  c6_fetch_failure_inconclusive _ _ "example.com" [] [] "fetch_timeout" (by decide) rfl

/-- C10: a domain that normalizes to the empty string or contains no dot
is hard-disqualified as `disqualified:invalid_domain` with keyword-match
false, without any fetch (the result is the same for every fetch
function); and this is the only way a result can be hard-disqualified
without page content: if the fetch returned no body and the result is
disqualified, the domain was invalid. -/
theorem c10_invalid_domain_hard (fetch fetch2 : String → Option PageParts × String)
    (us us2 : String → Bool) (domain : String) (kws ekws : List String)
    (hinv : normalizeDomainH domain = "" ∨ ¬strHasChar (normalizeDomainH domain) '.') :
    (collectDomainHomepageSignals fetch us domain kws ekws).homepage_status =
        "disqualified:invalid_domain" ∧
    (collectDomainHomepageSignals fetch us domain kws ekws).homepage_disqualified = true ∧
    (collectDomainHomepageSignals fetch us domain kws ekws).website_keywords_match = false ∧
    collectDomainHomepageSignals fetch us domain kws ekws =
      collectDomainHomepageSignals fetch2 us2 domain kws ekws ∧
    (∀ (f : String → Option PageParts × String) (u : String → Bool) (d : String)
        (k e : List String) (st : String),
      f (normalizeDomainH d) = (none, st) →
      (collectDomainHomepageSignals f u d k e).homepage_disqualified = true →
      (normalizeDomainH d = "" ∨ ¬strHasChar (normalizeDomainH d) '.')) := by
  refine ⟨?_, ?_, ?_, ?_, ?_⟩
  · unfold collectDomainHomepageSignals
    rw [if_pos hinv]
  · unfold collectDomainHomepageSignals
    rw [if_pos hinv]
  · unfold collectDomainHomepageSignals
    rw [if_pos hinv]
  · unfold collectDomainHomepageSignals
    rw [if_pos hinv, if_pos hinv]
  · intro f u d k e st hf hdq
    by_cases hv : normalizeDomainH d = "" ∨ ¬strHasChar (normalizeDomainH d) '.'
    · exact hv
    · exfalso
      unfold collectDomainHomepageSignals at hdq
      rw [if_neg hv, hf] at hdq
      simp at hdq

/-- Witness for C10: the dotless input `nodot` is hard-disqualified as an
invalid domain regardless of the fetch function. -/
theorem c10_invalid_domain_hard_witness :
    (collectDomainHomepageSignals (fun _ => (none, "fetch_failed")) (fun _ => false)
        "nodot" [] []).homepage_status = "disqualified:invalid_domain" ∧
    (collectDomainHomepageSignals (fun _ => (none, "fetch_failed")) (fun _ => false)
        "nodot" [] []).homepage_disqualified = true :=
  ⟨(c10_invalid_domain_hard (fun _ => (none, "fetch_failed")) (fun _ => (none, "fetch_failed"))
      (fun _ => false) (fun _ => false) "nodot" [] [] (by decide)).1,
   (c10_invalid_domain_hard (fun _ => (none, "fetch_failed")) (fun _ => (none, "fetch_failed"))
      (fun _ => false) (fun _ => false) "nodot" [] [] (by decide)).2.1⟩

/-! ### Rule filter engine (`server.py` `apply_rules`, `apply_rules_with_trace`)

Records are field→value maps; a `none` cell models a Polars null.
Masks are three-valued (`Option Bool`) with Kleene `&`/`|`/`~` as in
Polars; `filter` keeps a row exactly when its mask is `some true`.
`map_elements` runs with its default `skip_nulls=True`, so a null cell
yields a null mask in the `fuzzy`/`excludes`/`multivalue_*` branches
(the `cell_val is None` arm of `_mv_check` is unreachable).  External
libraries are parameters: the rapidfuzz scores, Polars `strptime`,
`datetime.fromisoformat` (order-embedded into `Int` timestamps) and
Python `float`. -/

/-- A cell value; `none` is a Polars null. -/
abbrev CellValue := Option String

/-- A record: field name to cell value. -/
abbrev Record := List (String × CellValue)

/-- A dataframe row: the `__row_id` value paired with the data record. -/
abbrev Row := Nat × Record

def recordGet (r : Record) (f : String) : CellValue :=
  match r.find? (fun kv => kv.1 = f) with
  | some kv => kv.2
  | none => none

/-- Polars nullable boolean. -/
abbrev KBool := Option Bool

/-- Kleene conjunction (`&` on nullable booleans). -/
def kand : KBool → KBool → KBool
  | some false, _ => some false
  | _, some false => some false
  | some true, some true => some true
  | _, _ => none

/-- Kleene disjunction (`|` on nullable booleans). -/
def kor : KBool → KBool → KBool
  | some true, _ => some true
  | _, some true => some true
  | some false, some false => some false
  | _, _ => none

/-- Kleene negation (`~` on nullable booleans). -/
def knot : KBool → KBool
  | some b => some (!b)
  | none => none

/-- `_is_blank`: `is_null | (strip_chars() == "")`. -/
def isBlankCell (v : CellValue) : KBool :=
  kor (some v.isNone)
    (match v with
     | none => none
     | some s => some (decide (strTrim s = "")))

/-- One tag group of a `contains`/`not_contains` rule
(`{tags, logic}`; `logic` defaults to `"and"` at access time). -/
structure RuleGroup where
  tags : List String
  logic : String
deriving Repr, DecidableEq

/-- A rule dict.  Optional keys are `Option`-typed; fields with access
defaults (`logic`="or", `groupsLogic`="or", `threshold`=80,
`includeBlankValues`=False) store the `.get` result. -/
structure Rule where
  field : String
  matchType : String
  values : List String
  groups : List RuleGroup
  logic : String
  groupsLogic : String
  threshold : Rat
  min : Option String
  max : Option String
  startDate : Option String
  endDate : Option String
  includeBlankValues : Bool
  separator : Option String
deriving Repr, DecidableEq

/-- External library functions of the rule engine. -/
structure RuleExt where
  tokenSortRatio : String → String → Rat
  partialRatio : String → String → Rat
  strptime : String → Option Int
  parseIso : String → Option Int
  pyFloat : String → Rat

/-- `fuzzy_match` (`server.py`): true when `value` scores at least
`threshold` against any target by token-sort or partial ratio. -/
def fuzzyMatch (ext : RuleExt) (value : String) (targets : List String)
    (threshold : Rat) : Bool :=
  if value = "" then false
  else
    let v := strLower (strTrim value)
    targets.any (fun t =>
      let tClean := strLower (strTrim t)
      threshold ≤ ext.tokenSortRatio v tClean || threshold ≤ ext.partialRatio v tClean)

/-- Flatten rule operand values: group tags when groups are present,
else the legacy `values` list; entries stripped, blanks dropped. -/
def ruleValues (rule : Rule) : List String :=
  if rule.groups ≠ [] then
    (rule.groups.map (fun g => (g.tags.map strTrim).filter (fun t => t ≠ ""))).flatten
  else (rule.values.map strTrim).filter (fun t => t ≠ "")

/-- `col_expr.str.contains(tag.lower(), literal=True)` against an
already-lowercased column value. -/
def strContainsLit (colv : Option String) (t : String) : KBool :=
  match colv with
  | none => none
  | some s => some (strInfix (strLower t) s)

/-- `_build_contains_group_expr`. -/
def containsGroupExpr (colv : Option String) (g : RuleGroup) : KBool :=
  let tags := (g.tags.map strTrim).filter (fun t => t ≠ "")
  if tags = [] then some true
  else if strLower g.logic = "and" then
    tags.foldl (fun e t => kand e (strContainsLit colv t)) (some true)
  else
    tags.foldl (fun e t => kor e (strContainsLit colv t)) (some false)

/-- The combined containment expression of a `contains`/`not_contains`
rule; `none` means the rule is skipped (`continue`). -/
def containsCore (rule : Rule) (v : CellValue) : Option KBool :=
  let colv := v.map strLower
  if rule.groups ≠ [] then
    let exprs := rule.groups.map (containsGroupExpr colv)
    if exprs = [] then none
    else if strLower rule.groupsLogic = "and" then
      some (exprs.tail.foldl kand (exprs.headD (some true)))
    else some (exprs.tail.foldl kor (exprs.headD (some true)))
  else
    let values := (rule.values.map strTrim).filter (fun t => t ≠ "")
    if values = [] then none
    else if strLower rule.logic = "and" then
      some (values.foldl (fun e t => kand e (strContainsLit colv t)) (some true))
    else some (values.foldl (fun e t => kor e (strContainsLit colv t)) (some false))

def exactMask (rule : Rule) (v : CellValue) : KBool :=
  let values := ruleValues rule
  if values = [] then some true
  else
    let lowerVals := values.map strLower
    kor (isBlankCell v)
      (match v with
       | none => none
       | some s => some (lowerVals.contains (strLower s)))

def notExactMask (rule : Rule) (v : CellValue) : KBool :=
  let values := ruleValues rule
  if values = [] then some true
  else
    let lowerVals := values.map strLower
    kor (isBlankCell v)
      (knot (match v with
             | none => none
             | some s => some (lowerVals.contains (strLower s))))

def containsMask (rule : Rule) (v : CellValue) : KBool :=
  match containsCore rule v with
  | none => some true
  | some combined => kor (isBlankCell v) combined

def notContainsMask (rule : Rule) (v : CellValue) : KBool :=
  match containsCore rule v with
  | none => some true
  | some combined => kor (isBlankCell v) (knot combined)

def fuzzyMask (ext : RuleExt) (rule : Rule) (v : CellValue) : KBool :=
  let values := ruleValues rule
  if values = [] then some true
  else
    kor (isBlankCell v)
      (match v with
       | none => none
       | some s => some (fuzzyMatch ext s values rule.threshold))

/-- Digits of a decimal string to a natural number. -/
def digitsToNat (ds : List Char) : Nat :=
  ds.foldl (fun n c => n * 10 + (c.toNat - 48)) 0

def numberToRat (whole frac : List Char) : Rat :=
  (digitsToNat whole : Rat) + (digitsToNat frac : Rat) / ((10 : Rat) ^ frac.length)

/-- The first `(\d+\.?\d*)` match of a character list, as a rational. -/
def extractNumericGo : List Char → Option Rat
  | [] => none
  | c :: cs =>
    if isDigitChar c then
      let d1 := (c :: cs).takeWhile isDigitChar
      let rest := (c :: cs).drop d1.length
      match rest with
      | '.' :: rest2 => some (numberToRat d1 (rest2.takeWhile isDigitChar))
      | _ => some (numberToRat d1 [])
    else extractNumericGo cs

/-- The numeric extraction of the `range` branch:
`replace_all(",", "")` then the first embedded number, `Float64`-cast. -/
def extractNumeric (s : String) : Option Rat :=
  extractNumericGo (s.data.filter (fun c => c != ','))

def rangeMask (ext : RuleExt) (rule : Rule) (v : CellValue) : KBool :=
  let hasMin := rule.min.isSome && strTrim (rule.min.getD "") != ""
  let hasMax := rule.max.isSome && strTrim (rule.max.getD "") != ""
  if !hasMin && !hasMax then some true
  else
    let text := v.getD ""
    let numeric := extractNumeric text
    let inR :=
      match numeric with
      | none => false
      | some x =>
        if hasMin && hasMax then
          decide (ext.pyFloat (rule.min.getD "") ≤ x ∧ x ≤ ext.pyFloat (rule.max.getD ""))
        else if hasMin then decide (ext.pyFloat (rule.min.getD "") ≤ x)
        else decide (x ≤ ext.pyFloat (rule.max.getD ""))
    some (if rule.includeBlankValues then numeric.isNone || inR else numeric.isSome && inR)

/-- The `date_expr` construction of the `dates` branch, given the parsed
cell value, the parsed bounds, the raw bounds and the stripped text. -/
def datesDateExpr (parsed startDt endDt : Option Int) (startRaw endRaw text : String) :
    KBool :=
  if startDt.isSome || endDt.isSome then
    let e0 : KBool := some parsed.isSome
    let e1 :=
      match startDt with
      | some ts => kand e0 (match parsed with
          | none => none
          | some t => some (decide (ts ≤ t)))
      | none => if startRaw ≠ "" then kand e0 (some (!strLt text startRaw)) else e0
    match endDt with
    | some ts => kand e1 (match parsed with
        | none => none
        | some t => some (decide (t ≤ ts)))
    | none => if endRaw ≠ "" then kand e1 (some (!strLt endRaw text)) else e1
  else
    let e0 : KBool := some (decide (text ≠ ""))
    let e1 := if startRaw ≠ "" then kand e0 (some (!strLt text startRaw)) else e0
    if endRaw ≠ "" then kand e1 (some (!strLt endRaw text)) else e1

def datesMask (ext : RuleExt) (rule : Rule) (v : CellValue) : KBool :=
  let startRaw := strTrim (rule.startDate.getD "")
  let endRaw := strTrim (rule.endDate.getD "")
  if startRaw = "" ∧ endRaw = "" then some true
  else
    let text := strTrim (v.getD "")
    let parsed := ext.strptime text
    let startDt := if startRaw ≠ "" then ext.parseIso startRaw else none
    let endDt := if endRaw ≠ "" then ext.parseIso endRaw else none
    let dateExpr := datesDateExpr parsed startDt endDt startRaw endRaw text
    if rule.includeBlankValues then
      let isBlankDate : Bool :=
        if startDt.isSome || endDt.isSome then parsed.isNone else decide (text = "")
      kor dateExpr (some isBlankDate)
    else dateExpr

def excludesMask (ext : RuleExt) (rule : Rule) (v : CellValue) : KBool :=
  let values := ruleValues rule
  if values = [] then some true
  else
    match v with
    | none => none
    | some s => some (!(fuzzyMatch ext s values rule.threshold))

/-- `str.split(sep)` on character lists (`sep` nonempty, as guaranteed by
`rule.get("separator") or ";"`).  The fuel argument (initialised to the
input length, consumed once per character) only bounds the recursion so
the definition is structural; every step consumes at least one
character, so the fuel never runs out on the initial call. -/
def splitOnListGo (sep : List Char) : Nat → List Char → List Char → List (List Char)
  | _, [], acc => [acc.reverse]
  | 0, cs, acc => [acc.reverse ++ cs]
  | fuel + 1, c :: cs, acc =>
    if sep.isPrefixOf (c :: cs) ∧ sep ≠ [] then
      acc.reverse :: splitOnListGo sep fuel (List.drop (sep.length - 1) cs) []
    else splitOnListGo sep fuel cs (c :: acc)

/-- The part set built by `_mv_check`: split on the separator, strip,
lowercase, drop blanks. -/
def splitMultivalueParts (sep cell : String) : List String :=
  ((splitOnListGo sep.data cell.data.length cell.data []).map (fun p => (⟨p⟩ : String))).filterMap
    (fun p => if strTrim p = "" then none else some (strLower (strTrim p)))

def multivalueMask (rule : Rule) (v : CellValue) : KBool :=
  let values := (ruleValues rule).map strLower
  if values = [] then some true
  else
    let sep := match rule.separator with
      | none => ";"
      | some s => if s = "" then ";" else s
    match v with
    | none => none
    | some cell =>
      let parts := splitMultivalueParts sep cell
      if rule.matchType = "multivalue_any" then
        some (parts.any (fun p => values.contains p))
      else if rule.matchType = "multivalue_all" then
        some (values.all (fun t => parts.contains t))
      else some (!parts.any (fun p => values.contains p))

def strUpper (s : String) : String := ⟨s.data.map Char.toUpper⟩

/-- `COUNTRY_ALIASES`. -/
def countryAliases : List (String × String) := [
  ("us", "US"), ("usa", "US"), ("united states", "US"),
  ("united states of america", "US"), ("america", "US"),
  ("uk", "GB"), ("gb", "GB"), ("united kingdom", "GB"), ("great britain", "GB"),
  ("england", "GB"),
  ("ca", "CA"), ("canada", "CA"),
  ("au", "AU"), ("australia", "AU"),
  ("de", "DE"), ("germany", "DE"), ("deutschland", "DE"),
  ("fr", "FR"), ("france", "FR"),
  ("es", "ES"), ("spain", "ES"), ("españa", "ES"),
  ("it", "IT"), ("italy", "IT"), ("italia", "IT"),
  ("nl", "NL"), ("netherlands", "NL"), ("holland", "NL"),
  ("se", "SE"), ("sweden", "SE"),
  ("no", "NO"), ("norway", "NO"),
  ("dk", "DK"), ("denmark", "DK"),
  ("fi", "FI"), ("finland", "FI"),
  ("ie", "IE"), ("ireland", "IE"),
  ("nz", "NZ"), ("new zealand", "NZ"),
  ("sg", "SG"), ("singapore", "SG"),
  ("jp", "JP"), ("japan", "JP"),
  ("kr", "KR"), ("south korea", "KR"), ("korea", "KR"),
  ("in", "IN"), ("india", "IN"),
  ("br", "BR"), ("brazil", "BR"),
  ("mx", "MX"), ("mexico", "MX"),
  ("il", "IL"), ("israel", "IL"),
  ("ch", "CH"), ("switzerland", "CH"),
  ("at", "AT"), ("austria", "AT"),
  ("be", "BE"), ("belgium", "BE"),
  ("pt", "PT"), ("portugal", "PT"),
  ("pl", "PL"), ("poland", "PL"),
  ("cz", "CZ"), ("czech republic", "CZ"), ("czechia", "CZ")]

/-- `normalize_country`. -/
def normalizeCountry (value : String) : String :=
  let v := strLower (strTrim value)
  match countryAliases.find? (fun kv => kv.1 = v) with
  | some kv => kv.2
  | none => if v.data.length = 2 then ⟨(strUpper v).data.take 2⟩ else v

def geoCountryMask (rule : Rule) (v : CellValue) : KBool :=
  let values := ruleValues rule
  if values = [] then some true
  else
    let targets := values.map normalizeCountry
    some (targets.contains (normalizeCountry (v.getD "")))

/-- The per-cell mask of one rule: the `elif` chain of `apply_rules`.
An unknown match type falls through every branch, leaving the frame
unfiltered. -/
def ruleMask (ext : RuleExt) (rule : Rule) (v : CellValue) : KBool :=
  if rule.matchType = "exact" then exactMask rule v
  else if rule.matchType = "not_exact" then notExactMask rule v
  else if rule.matchType = "contains" then containsMask rule v
  else if rule.matchType = "not_contains" then notContainsMask rule v
  else if rule.matchType = "fuzzy" then fuzzyMask ext rule v
  else if rule.matchType = "range" then rangeMask ext rule v
  else if rule.matchType = "dates" then datesMask ext rule v
  else if rule.matchType = "excludes" then excludesMask ext rule v
  else if rule.matchType = "multivalue_any" ∨ rule.matchType = "multivalue_all" ∨
      rule.matchType = "multivalue_exclude" then multivalueMask rule v
  else if rule.matchType = "geo_country" then geoCountryMask rule v
  else some true

/-- Whether a row passes one rule (a rule on a missing column is
skipped; otherwise the row is kept exactly when its mask is true). -/
def rulePred (ext : RuleExt) (cols : List String) (rule : Rule) (row : Row) : Bool :=
  if rule.field ∈ cols then ruleMask ext rule (recordGet row.2 rule.field) == some true
  else true

/-- One iteration of the `apply_rules` loop. -/
def applyOneRule (ext : RuleExt) (cols : List String) (rule : Rule) (rows : List Row) :
    List Row :=
  if rule.field ∈ cols then
    rows.filter (fun row => ruleMask ext rule (recordGet row.2 rule.field) == some true)
  else rows

/-- `apply_rules`: the rules applied in order to the frame. -/
def applyRules (ext : RuleExt) (cols : List String) (rules : List Rule)
    (rows : List Row) : List Row :=
  rules.foldl (fun df rule => applyOneRule ext cols rule df) rows

/-- `_rule_values_preview`. -/
def ruleValuesPreview (rule : Rule) (maxItems : Nat) : String :=
  let values := ruleValues rule
  if values = [] then ""
  else
    let shown := values.take maxItems
    let text := strJoin ", " shown
    if maxItems < values.length then
      text ++ ", +" ++ toString (values.length - maxItems) ++ " more"
    else text

/-- `_format_rule_reason`. -/
def formatRuleReason (rule : Rule) (index : Nat) : String :=
  let field := if rule.field = "" then "field" else rule.field
  let matchType := strLower rule.matchType
  let valuesPreview := ruleValuesPreview rule 3
  if matchType = "range" then
    let minVal := strTrim (rule.min.getD "")
    let maxVal := strTrim (rule.max.getD "")
    let clause :=
      if minVal ≠ "" ∧ maxVal ≠ "" then field ++ " between " ++ minVal ++ " and " ++ maxVal
      else if minVal ≠ "" then field ++ " at least " ++ minVal
      else if maxVal ≠ "" then field ++ " at most " ++ maxVal
      else field ++ " range rule"
    "Failed rule " ++ toString index ++ ": " ++ clause
  else if matchType = "dates" then
    let startDate := strTrim (rule.startDate.getD "")
    let endDate := strTrim (rule.endDate.getD "")
    let clause :=
      if startDate ≠ "" ∧ endDate ≠ "" then
        field ++ " between " ++ startDate ++ " and " ++ endDate
      else if startDate ≠ "" then field ++ " on or after " ++ startDate
      else if endDate ≠ "" then field ++ " on or before " ++ endDate
      else field ++ " date range rule"
    "Failed rule " ++ toString index ++ ": " ++ clause
  else
    let clause :=
      if matchType = "contains" then field ++ " contains"
      else if matchType = "not_contains" then field ++ " does not contain"
      else if matchType = "exact" then field ++ " equals"
      else if matchType = "not_exact" then field ++ " is not"
      else if matchType = "fuzzy" then field ++ " fuzzy match"
      else if matchType = "excludes" then field ++ " excludes"
      else if matchType = "multivalue_any" then field ++ " contains any of"
      else if matchType = "multivalue_all" then field ++ " contains all of"
      else if matchType = "multivalue_exclude" then field ++ " excludes any of"
      else if matchType = "geo_country" then field ++ " is in country"
      else field ++ " (" ++ (if matchType = "" then "rule" else matchType) ++ ")"
    if valuesPreview ≠ "" then
      "Failed rule " ++ toString index ++ ": " ++ clause ++ " " ++ valuesPreview
    else "Failed rule " ++ toString index ++ ": " ++ clause

/-- `apply_rules_with_trace` (the `__row_id` path): apply rules one at a
time, recording for each removed row id the reason rendered from the
rule that removed it.  Removal is detected by row id, as the source's
`anti_join` on `__row_id` does. -/
def applyRulesWithTrace (ext : RuleExt) (cols : List String) :
    List Rule → List Row → Nat → List Row × List (Nat × String)
  | [], rows, _ => (rows, [])
  | rule :: rest, rows, idx =>
    let after := applyOneRule ext cols rule rows
    let removed := rows.filter (fun row => !((after.map Prod.fst).contains row.1))
    let next := applyRulesWithTrace ext cols rest after (idx + 1)
    (next.1, removed.map (fun row => (row.1, formatRuleReason rule idx)) ++ next.2)

/-- `removed_reason_by_id` lookup (`dict` access on the trace). -/
def lookupReason (l : List (Nat × String)) (i : Nat) : Option String :=
  (l.find? (fun kv => kv.1 = i)).map (fun kv => kv.2)

/-! ### Rule engine lemmas and claims C3/C4 -/

theorem applyOneRule_eq_filter (ext : RuleExt) (cols : List String) (rule : Rule)
    (rows : List Row) :
    applyOneRule ext cols rule rows = rows.filter (rulePred ext cols rule) := by
  unfold applyOneRule rulePred
  by_cases h : rule.field ∈ cols
  · simp [h]
  · simp [h]

theorem applyRules_eq_filter (ext : RuleExt) (cols : List String) (rules : List Rule)
    (rows : List Row) :
    applyRules ext cols rules rows =
      rows.filter (fun row => rules.all (fun rule => rulePred ext cols rule row)) := by
  induction rules generalizing rows with
  | nil => simp [applyRules]
  | cons rule rest ih =>
    unfold applyRules
    rw [List.foldl_cons]
    have : List.foldl (fun df r => applyOneRule ext cols r df) (applyOneRule ext cols rule rows) rest =
        applyRules ext cols rest (applyOneRule ext cols rule rows) := rfl
    rw [this, ih, applyOneRule_eq_filter, List.filter_filter]
    apply List.filter_congr
    intro row _
    rw [List.all_cons, Bool.and_comm]

theorem all_of_perm {α : Type} (f : α → Bool) {l1 l2 : List α} (h : l1.Perm l2) :
    l1.all f = l2.all f := by
  induction h with
  | nil => rfl
  | cons x _ ih => simp [List.all_cons, ih]
  | swap x y l =>
    simp only [List.all_cons]
    cases f x <;> cases f y <;> simp
  | trans _ _ ih1 ih2 => rw [ih1, ih2]

theorem lookupReason_append_right (l1 l2 : List (Nat × String)) (i : Nat)
    (h : ∀ kv ∈ l1, kv.1 ≠ i) : lookupReason (l1 ++ l2) i = lookupReason l2 i := by
  induction l1 with
  | nil => rfl
  | cons kv l ih =>
    unfold lookupReason at *
    rw [List.cons_append, List.find?_cons]
    have hne : (kv.1 = i) = False := by simp [h kv (by simp)]
    simp only [hne, decide_False]
    exact ih (fun kv' h' => h kv' (by simp [h']))

theorem lookupReason_map_mem (rowsR : List Row) (l2 : List (Nat × String))
    (reason : String) (i : Nat) (h : i ∈ rowsR.map Prod.fst) :
    lookupReason ((rowsR.map (fun row => (row.1, reason))) ++ l2) i = some reason := by
  induction rowsR with
  | nil => simp at h
  | cons r rs ih =>
    by_cases hr : r.1 = i
    · unfold lookupReason
      simp [List.find?_cons, hr]
    · have h' : i ∈ rs.map Prod.fst := by
        rw [List.map_cons, List.mem_cons] at h
        exact h.resolve_left (fun he => hr he.symm)
      unfold lookupReason at *
      rw [List.map_cons, List.cons_append, List.find?_cons]
      simp only [hr, decide_False]
      exact ih h'

/-- The trace of `apply_rules_with_trace` records, for a row failing some
rule, the reason of the first failing rule (in list order), indexed from
`idx`. -/
theorem traceReason_spec (ext : RuleExt) (cols : List String) (pre : List Rule) :
    ∀ (post : List Rule) (rule : Rule) (rows : List Row) (idx : Nat),
    ((rows.map Prod.fst).Nodup) → ∀ row ∈ rows,
    (∀ r' ∈ pre, rulePred ext cols r' row = true) →
    rulePred ext cols rule row = false →
    lookupReason (applyRulesWithTrace ext cols (pre ++ rule :: post) rows idx).2 row.1 =
      some (formatRuleReason rule (pre.length + idx)) := by
  induction pre with
  | nil =>
    intro post rule rows idx hnodup row hrow hpre hfail
    simp only [List.nil_append, applyRulesWithTrace, List.length_nil, Nat.zero_add]
    have hafter : row ∉ applyOneRule ext cols rule rows := by
      rw [applyOneRule_eq_filter, List.mem_filter]
      rintro ⟨-, hp⟩
      rw [hfail] at hp
      exact Bool.false_ne_true hp
    have hid : row.1 ∉ (applyOneRule ext cols rule rows).map Prod.fst := by
      intro hmem
      rcases List.mem_map.mp hmem with ⟨row', hrow', hideq⟩
      have hrow'rows : row' ∈ rows := by
        rw [applyOneRule_eq_filter] at hrow'
        exact List.mem_of_mem_filter hrow'
      have : row' = row := List.inj_on_of_nodup_map hnodup hrow'rows hrow hideq
      exact hafter (this ▸ hrow')
    have hrem : row ∈ rows.filter
        (fun r => !(((applyOneRule ext cols rule rows).map Prod.fst).contains r.1)) := by
      rw [List.mem_filter]
      refine ⟨hrow, ?_⟩
      simp only [Bool.not_eq_true']
      rw [← Bool.not_eq_true]
      intro hc
      exact hid (by simpa using hc)
    exact lookupReason_map_mem _ _ _ _ (List.mem_map.mpr ⟨row, hrem, rfl⟩)
  | cons r0 pre' ih =>
    intro post rule rows idx hnodup row hrow hpre hfail
    simp only [List.cons_append, applyRulesWithTrace, List.append_eq]
    have hpass : rulePred ext cols r0 row = true := hpre r0 (by simp)
    have hafter : row ∈ applyOneRule ext cols r0 rows := by
      rw [applyOneRule_eq_filter, List.mem_filter]
      exact ⟨hrow, hpass⟩
    have hidin : row.1 ∈ (applyOneRule ext cols r0 rows).map Prod.fst :=
      List.mem_map.mpr ⟨row, hafter, rfl⟩
    have hnone : ∀ kv ∈ (rows.filter
        (fun r => !(((applyOneRule ext cols r0 rows).map Prod.fst).contains r.1))).map
          (fun row => (row.1, formatRuleReason r0 idx)), kv.1 ≠ row.1 := by
      intro kv hkv
      rcases List.mem_map.mp hkv with ⟨row', hrow', rfl⟩
      rw [List.mem_filter] at hrow'
      intro heq
      have hcontains : ((applyOneRule ext cols r0 rows).map Prod.fst).contains row'.1 = true := by
        rw [heq]
        simpa using hidin
      rw [hcontains] at hrow'
      exact absurd hrow'.2 (by decide)
    rw [lookupReason_append_right _ _ _ hnone]
    have hnodup' : ((applyOneRule ext cols r0 rows).map Prod.fst).Nodup := by
      rw [applyOneRule_eq_filter]
      exact hnodup.sublist (List.Sublist.map _ (List.filter_sublist _))
    have hres := ih post rule (applyOneRule ext cols r0 rows) (idx + 1) hnodup' row hafter
      (fun r' h' => hpre r' (by simp [h'])) hfail
    rw [hres]
    congr 2
    simp only [List.length_cons]
    omega

/-- C3: the surviving set of rule filtering is order-independent — the
rules AND together as per-record predicates, so any permutation of the
rule list filters the same rows — while the reported reason for a
removed record is rendered from the first rule, in list order, whose
application removed it. -/
theorem c3_rule_order (ext : RuleExt) (cols : List String) (rules rules2 : List Rule)
    (rows : List Row) (hperm : rules.Perm rules2)
    (hnodup : (rows.map Prod.fst).Nodup) :
    applyRules ext cols rules rows = applyRules ext cols rules2 rows ∧
    applyRules ext cols rules rows =
      rows.filter (fun row => rules.all (fun rule => rulePred ext cols rule row)) ∧
    (∀ row ∈ rows, ∀ (pre post : List Rule) (rule : Rule),
      rules = pre ++ rule :: post →
      (∀ r' ∈ pre, rulePred ext cols r' row = true) →
      rulePred ext cols rule row = false →
      lookupReason (applyRulesWithTrace ext cols rules rows 1).2 row.1 =
        some (formatRuleReason rule (pre.length + 1))) := by
  refine ⟨?_, applyRules_eq_filter ext cols rules rows, ?_⟩
  · rw [applyRules_eq_filter, applyRules_eq_filter]
    apply List.filter_congr
    intro row _
    exact all_of_perm _ hperm
  · intro row hrow pre post rule hrules hpre hfail
    subst hrules
    exact traceReason_spec ext cols pre post rule rows 1 hnodup row hrow hpre hfail

/-- A concrete external-function instance for witnesses: all similarity
scores zero, all parses failing, float conversion constantly zero. -/
def ruleExt0 : RuleExt :=
  ⟨fun _ _ => 0, fun _ _ => 0, fun _ => none, fun _ => none, fun _ => 0⟩

/-- A rule with only field, match type and values set; every other key
is absent or at its dict-access default. -/
def mkSimpleRule (field matchType : String) (values : List String) : Rule :=
  ⟨field, matchType, values, [], "or", "or", 80, none, none, none, none, false, none⟩

/-- Witness for C3 at a concrete frame: swapping an `exact` rule and a
`contains` rule leaves the survivors unchanged, and the removed row's
reason comes from the first rule. -/
theorem c3_rule_order_witness :
    applyRules ruleExt0 ["industry"]
      [mkSimpleRule "industry" "exact" ["software"],
       mkSimpleRule "industry" "contains" ["soft"]]
      [(0, [("industry", some "hardware")]), (1, [("industry", some "software")])] =
    applyRules ruleExt0 ["industry"]
      [mkSimpleRule "industry" "contains" ["soft"],
       mkSimpleRule "industry" "exact" ["software"]]
      [(0, [("industry", some "hardware")]), (1, [("industry", some "software")])] ∧
    lookupReason
      (applyRulesWithTrace ruleExt0 ["industry"]
        [mkSimpleRule "industry" "exact" ["software"],
         mkSimpleRule "industry" "contains" ["soft"]]
        [(0, [("industry", some "hardware")]), (1, [("industry", some "software")])] 1).2 0 =
      some (formatRuleReason (mkSimpleRule "industry" "exact" ["software"]) 1) := by
  have h := c3_rule_order ruleExt0 ["industry"]
    [mkSimpleRule "industry" "exact" ["software"],
     mkSimpleRule "industry" "contains" ["soft"]]
    [mkSimpleRule "industry" "contains" ["soft"],
     mkSimpleRule "industry" "exact" ["software"]]
    [(0, [("industry", some "hardware")]), (1, [("industry", some "software")])]
    (List.Perm.swap _ _ _) (by decide)
  refine ⟨h.1, ?_⟩
  have h3 := h.2.2 (0, [("industry", some "hardware")]) (by simp)
    [] [mkSimpleRule "industry" "contains" ["soft"]]
    (mkSimpleRule "industry" "exact" ["software"]) rfl
    (by intro r' hr'; simp at hr') (by decide)
  simpa using h3

/-! ### Blank-value policy (claim C4) -/

/-- A blank cell: a null, or a value that strips to the empty string. -/
def blankCell (v : CellValue) : Prop :=
  v = none ∨ ∃ s, v = some s ∧ strTrim s = ""

theorem isBlankCell_of_blank (v : CellValue) (h : blankCell v) :
    isBlankCell v = some true := by
  rcases h with h | ⟨s, rfl, hs⟩
  · subst h
    rfl
  · simp [isBlankCell, hs, kor]

theorem kor_true_left (x : KBool) : kor (some true) x = some true := by
  cases x with
  | none => rfl
  | some b => cases b <;> rfl

theorem kand_false_left (x : KBool) : kand (some false) x = some false := by
  cases x with
  | none => rfl
  | some b => cases b <;> rfl

theorem exactMask_blank (rule : Rule) (v : CellValue) (h : blankCell v) :
    exactMask rule v = some true := by
  unfold exactMask
  by_cases hvals : ruleValues rule = [] <;>
    simp [hvals, isBlankCell_of_blank v h, kor_true_left]

theorem notExactMask_blank (rule : Rule) (v : CellValue) (h : blankCell v) :
    notExactMask rule v = some true := by
  unfold notExactMask
  by_cases hvals : ruleValues rule = [] <;>
    simp [hvals, isBlankCell_of_blank v h, kor_true_left]

theorem containsMask_blank (rule : Rule) (v : CellValue) (h : blankCell v) :
    containsMask rule v = some true := by
  unfold containsMask
  cases containsCore rule v with
  | none => rfl
  | some combined => simp [isBlankCell_of_blank v h, kor_true_left]

theorem notContainsMask_blank (rule : Rule) (v : CellValue) (h : blankCell v) :
    notContainsMask rule v = some true := by
  unfold notContainsMask
  cases containsCore rule v with
  | none => rfl
  | some combined => simp [isBlankCell_of_blank v h, kor_true_left]

theorem fuzzyMask_blank (ext : RuleExt) (rule : Rule) (v : CellValue) (h : blankCell v) :
    fuzzyMask ext rule v = some true := by
  unfold fuzzyMask
  by_cases hvals : ruleValues rule = [] <;>
    simp [hvals, isBlankCell_of_blank v h, kor_true_left]

theorem trim_nil_all_space (cs : List Char) (h : trimChars cs = []) :
    ∀ c ∈ cs, isSpaceChar c = true := by
  unfold trimChars at h
  rw [List.reverse_eq_nil_iff, List.dropWhile_eq_nil_iff] at h
  intro c hc
  rcases List.mem_append.mp ((List.takeWhile_append_dropWhile (p := isSpaceChar) (l := cs)) ▸ hc) with h1 | h1
  · exact List.mem_takeWhile_imp h1
  · exact h c (List.mem_reverse.mpr h1)

theorem spaceChar_not_digit (c : Char) (h : isSpaceChar c = true) :
    isDigitChar c = false := by
  unfold isSpaceChar at h
  simp only [Bool.or_eq_true, decide_eq_true_eq] at h
  rcases h with ((((h | h) | h) | h) | h) | h <;> subst h <;> decide

theorem extractNumericGo_none (cs : List Char) (h : ∀ c ∈ cs, isDigitChar c = false) :
    extractNumericGo cs = none := by
  induction cs with
  | nil => rfl
  | cons c cs ih =>
    unfold extractNumericGo
    rw [if_neg (by simp [h c (by simp)])]
    exact ih (fun c' hc' => h c' (by simp [hc']))

theorem extractNumeric_none_of_blank (s : String) (h : strTrim s = "") :
    extractNumeric s = none := by
  have hnil : trimChars s.data = [] := congrArg String.data h
  apply extractNumericGo_none
  intro c hc
  have hcs : c ∈ s.data := List.mem_of_mem_filter hc
  exact spaceChar_not_digit c (trim_nil_all_space s.data hnil c hcs)

theorem blank_text_empty (v : CellValue) (h : blankCell v) : strTrim (v.getD "") = "" := by
  rcases h with h | ⟨s, rfl, hs⟩
  · subst h
    rfl
  · exact hs

theorem blank_numeric_none (v : CellValue) (h : blankCell v) :
    extractNumeric (v.getD "") = none := by
  rcases h with h | ⟨s, rfl, hs⟩
  · subst h
    rfl
  · exact extractNumeric_none_of_blank s hs

theorem rangeMask_blank_pass (ext : RuleExt) (rule : Rule) (v : CellValue)
    (h : blankCell v) (hflag : rule.includeBlankValues = true) :
    rangeMask ext rule v = some true := by
  simp only [rangeMask]
  by_cases hskip : (!(rule.min.isSome && strTrim (rule.min.getD "") != "") &&
      !(rule.max.isSome && strTrim (rule.max.getD "") != "")) = true
  · rw [if_pos hskip]
  · rw [if_neg hskip, blank_numeric_none v h]
    simp [hflag]

theorem rangeMask_blank_fail (ext : RuleExt) (rule : Rule) (v : CellValue)
    (h : blankCell v) (hflag : rule.includeBlankValues = false)
    (hbound : ((rule.min.isSome && strTrim (rule.min.getD "") != "") ||
      (rule.max.isSome && strTrim (rule.max.getD "") != "")) = true) :
    rangeMask ext rule v = some false := by
  simp only [rangeMask]
  have hskip : ¬((!(rule.min.isSome && strTrim (rule.min.getD "") != "") &&
      !(rule.max.isSome && strTrim (rule.max.getD "") != "")) = true) := by
    intro hcon
    rw [Bool.and_eq_true, Bool.not_eq_true', Bool.not_eq_true'] at hcon
    rw [hcon.1, hcon.2] at hbound
    exact absurd hbound (by decide)
  rw [if_neg hskip, blank_numeric_none v h]
  simp [hflag]

theorem kor_true_right (x : KBool) : kor x (some true) = some true := by
  cases x with
  | none => rfl
  | some b => cases b <;> rfl

theorem datesDateExpr_parsed_none (sd ed : Option Int) (sr er : String) :
    datesDateExpr none sd ed sr er "" = some false := by
  unfold datesDateExpr
  split
  · cases sd <;> cases ed <;>
      by_cases hsr : sr ≠ "" <;> by_cases her : er ≠ "" <;>
      simp [hsr, her, kand_false_left]
  · by_cases hsr : sr ≠ "" <;> by_cases her : er ≠ "" <;>
      simp [hsr, her, kand_false_left]

theorem datesMask_blank_pass (ext : RuleExt) (rule : Rule) (v : CellValue)
    (h : blankCell v) (hflag : rule.includeBlankValues = true)
    (hstrp : ext.strptime "" = none) :
    datesMask ext rule v = some true := by
  simp only [datesMask]
  by_cases hskip : strTrim (rule.startDate.getD "") = "" ∧ strTrim (rule.endDate.getD "") = ""
  · rw [if_pos hskip]
  · rw [if_neg hskip, blank_text_empty v h, hstrp]
    have hinc : (rule.includeBlankValues = true) = True := by simp [hflag]
    simp only [hinc, if_true, decide_True, Option.isNone_none, ite_self]
    rw [kor_true_right]

theorem datesMask_blank_fail (ext : RuleExt) (rule : Rule) (v : CellValue)
    (h : blankCell v) (hflag : rule.includeBlankValues = false)
    (hstrp : ext.strptime "" = none)
    (hraws : ¬(strTrim (rule.startDate.getD "") = "" ∧ strTrim (rule.endDate.getD "") = "")) :
    datesMask ext rule v = some false := by
  simp only [datesMask]
  rw [if_neg hraws, blank_text_empty v h, hstrp]
  have hflag2 : (rule.includeBlankValues = true) = False := by simp [hflag]
  simp only [hflag2, if_false]
  exact datesDateExpr_parsed_none _ _ _ _

theorem ruleMask_exact (ext : RuleExt) (rule : Rule) (v : CellValue)
    (h : rule.matchType = "exact") : ruleMask ext rule v = exactMask rule v := by
  simp [ruleMask, h]

theorem ruleMask_not_exact (ext : RuleExt) (rule : Rule) (v : CellValue)
    (h : rule.matchType = "not_exact") : ruleMask ext rule v = notExactMask rule v := by
  simp [ruleMask, h]

theorem ruleMask_contains (ext : RuleExt) (rule : Rule) (v : CellValue)
    (h : rule.matchType = "contains") : ruleMask ext rule v = containsMask rule v := by
  simp [ruleMask, h]

theorem ruleMask_not_contains (ext : RuleExt) (rule : Rule) (v : CellValue)
    (h : rule.matchType = "not_contains") : ruleMask ext rule v = notContainsMask rule v := by
  simp [ruleMask, h]

theorem ruleMask_fuzzy (ext : RuleExt) (rule : Rule) (v : CellValue)
    (h : rule.matchType = "fuzzy") : ruleMask ext rule v = fuzzyMask ext rule v := by
  simp [ruleMask, h]

theorem ruleMask_range (ext : RuleExt) (rule : Rule) (v : CellValue)
    (h : rule.matchType = "range") : ruleMask ext rule v = rangeMask ext rule v := by
  simp [ruleMask, h]

theorem ruleMask_dates (ext : RuleExt) (rule : Rule) (v : CellValue)
    (h : rule.matchType = "dates") : ruleMask ext rule v = datesMask ext rule v := by
  simp [ruleMask, h]

theorem ruleMask_multivalue (ext : RuleExt) (rule : Rule) (v : CellValue)
    (h : rule.matchType = "multivalue_any" ∨ rule.matchType = "multivalue_all" ∨
      rule.matchType = "multivalue_exclude") :
    ruleMask ext rule v = multivalueMask rule v := by
  rcases h with h | h | h <;> simp [ruleMask, h]

theorem multivalueMask_null (rule : Rule) (hvals : ruleValues rule ≠ []) :
    multivalueMask rule none = none := by
  simp only [multivalueMask]
  rw [if_neg (by simpa using hvals)]

/-- C4: a blank or missing cell passes `exact`, `not_exact`, `contains`,
`not_contains` and `fuzzy` rules; for `range` and `dates` the
`includeBlankValues` flag decides (pass when set, fail by default whenever
a usable bound is present); but — contrary to the claim's exception list —
a missing cell also fails `multivalue_any`/`multivalue_all` rules: its
null mask drops the row. -/
theorem c4_blank_policy (ext : RuleExt) (cols : List String) (rule : Rule) (row : Row)
    (hfield : rule.field ∈ cols)
    (hblank : blankCell (recordGet row.2 rule.field)) :
    ((rule.matchType = "exact" ∨ rule.matchType = "not_exact" ∨
        rule.matchType = "contains" ∨ rule.matchType = "not_contains" ∨
        rule.matchType = "fuzzy") →
      rulePred ext cols rule row = true) ∧
    (rule.matchType = "range" → rule.includeBlankValues = true →
      rulePred ext cols rule row = true) ∧
    (rule.matchType = "range" → rule.includeBlankValues = false →
      ((rule.min.isSome && strTrim (rule.min.getD "") != "") ||
        (rule.max.isSome && strTrim (rule.max.getD "") != "")) = true →
      rulePred ext cols rule row = false) ∧
    (rule.matchType = "dates" → rule.includeBlankValues = true →
      ext.strptime "" = none →
      rulePred ext cols rule row = true) ∧
    (rule.matchType = "dates" → rule.includeBlankValues = false →
      ext.strptime "" = none →
      ¬(strTrim (rule.startDate.getD "") = "" ∧ strTrim (rule.endDate.getD "") = "") →
      rulePred ext cols rule row = false) ∧
    ((rule.matchType = "multivalue_any" ∨ rule.matchType = "multivalue_all") →
      recordGet row.2 rule.field = none → ruleValues rule ≠ [] →
      rulePred ext cols rule row = false) := by
  have hpred : rulePred ext cols rule row =
      (ruleMask ext rule (recordGet row.2 rule.field) == some true) := by
    unfold rulePred
    rw [if_pos hfield]
  refine ⟨?_, ?_, ?_, ?_, ?_, ?_⟩
  · intro h5
    rw [hpred]
    rcases h5 with h | h | h | h | h
    · rw [ruleMask_exact ext rule _ h, exactMask_blank rule _ hblank]
      rfl
    · rw [ruleMask_not_exact ext rule _ h, notExactMask_blank rule _ hblank]
      rfl
    · rw [ruleMask_contains ext rule _ h, containsMask_blank rule _ hblank]
      rfl
    · rw [ruleMask_not_contains ext rule _ h, notContainsMask_blank rule _ hblank]
      rfl
    · rw [ruleMask_fuzzy ext rule _ h, fuzzyMask_blank ext rule _ hblank]
      rfl
  · intro hmt hflag
    rw [hpred, ruleMask_range ext rule _ hmt,
      rangeMask_blank_pass ext rule _ hblank hflag]
    rfl
  · intro hmt hflag hbound
    rw [hpred, ruleMask_range ext rule _ hmt,
      rangeMask_blank_fail ext rule _ hblank hflag hbound]
    rfl
  · intro hmt hflag hstrp
    rw [hpred, ruleMask_dates ext rule _ hmt,
      datesMask_blank_pass ext rule _ hblank hflag hstrp]
    rfl
  · intro hmt hflag hstrp hraws
    rw [hpred, ruleMask_dates ext rule _ hmt,
      datesMask_blank_fail ext rule _ hblank hflag hstrp hraws]
    rfl
  · intro hmt hv hvals
    rw [hpred,
      ruleMask_multivalue ext rule _ (hmt.elim Or.inl (fun h => Or.inr (Or.inl h))),
      hv, multivalueMask_null rule hvals]
    rfl

/-- C4 counterexample: an empty-string cell is blank, `multivalue_any` is
not among the claim's exempted match types, yet the record fails the rule
and is removed by `apply_rules`. -/
theorem c4_blank_policy_counterexample :
    blankCell (recordGet [("tags", some "")] "tags") ∧
    ¬(("multivalue_any" : String) = "excludes" ∨
        ("multivalue_any" : String) = "multivalue_exclude" ∨
        ("multivalue_any" : String) = "geo_country" ∨
        ("multivalue_any" : String) = "range" ∨
        ("multivalue_any" : String) = "dates") ∧
    rulePred ruleExt0 ["tags"] (mkSimpleRule "tags" "multivalue_any" ["software"])
      (0, [("tags", some "")]) = false ∧
    applyRules ruleExt0 ["tags"] [mkSimpleRule "tags" "multivalue_any" ["software"]]
      [(0, [("tags", some "")])] = [] := by
  refine ⟨Or.inr ⟨"", rfl, rfl⟩, by decide, by decide, by decide⟩

/-- C4 witness: a whitespace-only `industry` cell passes an `exact` rule,
passes a `range` rule with the pass-blank flag, and fails the same `range`
rule without it. -/
theorem c4_blank_policy_witness :
    rulePred ruleExt0 ["industry"] (mkSimpleRule "industry" "exact" ["software"])
      (0, [("industry", some " ")]) = true ∧
    rulePred ruleExt0 ["industry"]
      { mkSimpleRule "industry" "range" [] with min := some "5", includeBlankValues := true }
      (0, [("industry", some " ")]) = true ∧
    rulePred ruleExt0 ["industry"]
      { mkSimpleRule "industry" "range" [] with min := some "5" }
      (0, [("industry", some " ")]) = false := by
  refine ⟨?_, ?_, ?_⟩
  · exact (c4_blank_policy ruleExt0 ["industry"]
      (mkSimpleRule "industry" "exact" ["software"]) (0, [("industry", some " ")])
      (by decide) (Or.inr ⟨" ", rfl, by decide⟩)).1 (Or.inl rfl)
  · exact (c4_blank_policy ruleExt0 ["industry"]
      { mkSimpleRule "industry" "range" [] with min := some "5", includeBlankValues := true }
      (0, [("industry", some " ")])
      (by decide) (Or.inr ⟨" ", rfl, by decide⟩)).2.1 rfl rfl
  · exact (c4_blank_policy ruleExt0 ["industry"]
      { mkSimpleRule "industry" "range" [] with min := some "5" }
      (0, [("industry", some " ")])
      (by decide) (Or.inr ⟨" ", rfl, by decide⟩)).2.2.1 rfl rfl (by decide)

/-! ### Cross-dataset HubSpot dedupe (claim C8) -/

/-- Python `str.replace` (non-overlapping, left to right): join the
split pieces with the replacement. -/
def strReplace (s pat rep : String) : String :=
  strJoin rep ((splitOnListGo pat.data s.data.length s.data []).map (fun p => (⟨p⟩ : String)))

/-- `normalize_company_text`: lowercase, turn non-alphanumeric runs into
single spaces, strip and collapse — the alphanumeric runs of the
lowercased text joined by single spaces. -/
def normalizeCompanyText (value : String) : String :=
  if value = "" then ""
  else strJoin " " ((splitRunsBy (fun c => !isLowerAlnum c) (strLower value).data).map
    (fun w => (⟨w⟩ : String)))

def isSchemeChar (c : Char) : Bool :=
  isLowerAlphaChar c || isDigitChar c || c = '+' || c = '.' || c = '-'

/-- Whether `raw` matches `^[a-z][a-z0-9+.-]*://`; the character class
excludes `:`, so a match can only end at the first colon. -/
def hasSchemePrefix (raw : String) : Bool :=
  let pre := raw.data.takeWhile (fun c => c != ':')
  (match pre with
   | [] => false
   | c :: cs => isLowerAlphaChar c && cs.all isSchemeChar) &&
  [':', '/', '/'].isPrefixOf (raw.data.drop pre.length)

/-- The text after `scheme://` (for inputs that carry a scheme). -/
def afterScheme (raw : String) : List Char :=
  raw.data.drop ((raw.data.takeWhile (fun c => c != ':')).length + 3)

def isNetlocEnd (c : Char) : Bool := c = '/' || c = '?' || c = '#'

/-- `urlsplit(...).netloc` of a URL body following `scheme://`: up to the
first `/`, `?` or `#`. -/
def urlNetloc (body : List Char) : List Char := body.takeWhile (fun c => !isNetlocEnd c)

/-- `urlsplit(...).path`: from the netloc end up to the query/fragment. -/
def urlPath (body : List Char) : List Char :=
  (body.drop (urlNetloc body).length).takeWhile (fun c => !(c = '?' || c = '#'))

/-- `urlsplit` raises `ValueError` ("Invalid IPv6 URL") exactly on an
unmatched bracket in the netloc. -/
def urlsplitRaises (body : List Char) : Bool :=
  let netloc := urlNetloc body
  (netloc.contains '[' && !netloc.contains ']') ||
    (netloc.contains ']' && !netloc.contains '[')

/-- `.strip(".")`. -/
def stripDots (cs : List Char) : List Char := stripCharsBy (fun c => c = '.') cs

/-- `split("@")[-1]`: the segment after the last `@` (the whole string
when there is none). -/
def afterLastAt (cs : List Char) : List Char :=
  (cs.reverse.takeWhile (fun c => c != '@')).reverse

/-- `_COMMON_SUBDOMAINS`. -/
def commonSubdomains : List String :=
  ["www.", "app.", "mail.", "blog.", "m.", "ww1.", "ww2.", "www2.", "web.", "portal."]

/-- Strip the first matching `_COMMON_SUBDOMAINS` prefix (at most one;
the loop breaks). -/
def stripCommonSubdomain (host : String) : String :=
  match commonSubdomains.find? (fun p => strStartsWith host p) with
  | some p => strDrop host p.data.length
  | none => host

/-- The shared `replace("https://","").replace("http://","").replace("www.","")`
fallback cleanup. -/
def replaceSchemeWww (raw : String) : String :=
  strReplace (strReplace (strReplace raw "https://" "") "http://" "") "www." ""

/-- `normalize_domain_key` (`server.py`), with `urlsplit` modelled by
`urlNetloc`/`urlPath`/`urlsplitRaises` on the text after `scheme://`. -/
def normalizeDomainKey (value : String) : String :=
  if value = "" then ""
  else
    let raw := strLower (strTrim value)
    if raw = "" ∨ strHasChar raw ' ' then ""
    else
      let body := if hasSchemePrefix raw then afterScheme raw else raw.data
      if urlsplitRaises body then
        let cleaned := replaceSchemeWww raw
        ⟨stripDots (cleaned.data.takeWhile (fun c => !(isNetlocEnd c || c = ':')))⟩
      else
        let netloc := urlNetloc body
        let host0 := if netloc.isEmpty then urlPath body else netloc
        let host := strLower (strTrim ⟨host0⟩)
        if host = "" then ""
        else
          stripCommonSubdomain
            ⟨stripDots ((afterLastAt (host.data.takeWhile (fun c => c != '/'))).takeWhile
              (fun c => c != ':'))⟩

/-- `.lstrip("@")`. -/
def dropLeadingAts (cs : List Char) : List Char := cs.dropWhile (fun c => c = '@')

/-- `.rstrip("/")`. -/
def rstripSlash (cs : List Char) : List Char :=
  (cs.reverse.dropWhile (fun c => c = '/')).reverse

/-- `normalize_linkedin_key` (`server.py`). -/
def normalizeLinkedinKey (value : String) : String :=
  if value = "" then ""
  else
    let raw := strLower (strTrim value)
    if raw = "" then ""
    else if strStartsWith raw "@" then strTrim ⟨dropLeadingAts raw.data⟩
    else if strHasChar raw ' ' ∧ ¬ strInfix "linkedin" raw = true then ""
    else if ¬ strInfix "linkedin" raw = true ∧ ¬ strHasChar raw '/' = true ∧
        ¬ strHasChar raw '.' = true then raw
    else
      let body := if hasSchemePrefix raw then afterScheme raw else raw.data
      if urlsplitRaises body then
        let cleaned : String :=
          ⟨rstripSlash ((replaceSchemeWww raw).data.takeWhile (fun c => !(c = '?' || c = '#')))⟩
        if strInfix "linkedin" cleaned then cleaned else ""
      else
        let host1 := strLower (strTrim ⟨urlNetloc body⟩)
        let path := strLower (strTrim ⟨urlPath body⟩)
        let host := if strStartsWith host1 "www." then strDrop host1 4 else host1
        if host = "" then strTrim ⟨rstripSlash (replaceSchemeWww raw).data⟩
        else if strEndsWith host "linkedin.com" then
          let path2 : String := ⟨rstripSlash path.data⟩
          if path2 ≠ "" then host ++ path2 else host
        else ⟨rstripSlash (host ++ path).data⟩

def isEmailLocalChar (c : Char) : Bool :=
  isAlnumCharA c || c = '.' || c = '_' || c = '%' || c = '+' || c = '-'

def isEmailDomChar (c : Char) : Bool := isAlnumCharA c || c = '.' || c = '-'

def isAsciiAlpha (c : Char) : Bool := ('a' ≤ c && c ≤ 'z') || ('A' ≤ c && c ≤ 'Z')

/-- `EMAIL_RE.match`: a local part, one `@`, and a domain whose last dot
is followed by an alphabetic TLD of length at least 2.  The anchored
greedy regex matches exactly when this first-`@`/last-dot decomposition
does. -/
def emailReMatch (s : String) : Bool :=
  let loc := s.data.takeWhile (fun c => c != '@')
  match s.data.drop loc.length with
  | [] => false
  | _ :: dom =>
    let rtld := dom.reverse.takeWhile (fun c => c != '.')
    !loc.isEmpty && loc.all isEmailLocalChar && !dom.contains '@' &&
    decide (rtld.length < dom.length) &&
    !(dom.take (dom.length - rtld.length - 1)).isEmpty &&
    (dom.take (dom.length - rtld.length - 1)).all isEmailDomChar &&
    decide (2 ≤ rtld.length) && rtld.all isAsciiAlpha

/-- `normalize_email_key`. -/
def normalizeEmailKey (value : String) : String :=
  if value = "" then ""
  else
    let raw := strLower (strTrim value)
    if raw = "" ∨ emailReMatch raw = false then "" else raw

/-- The junk keys dropped by `_extract_normalized_keys`. -/
def junkKeys : List String := ["unknown", "n/a", "none", "null"]

def multiSepChars : List Char := [',', '\n', ';', '|']

/-- `_split_multivalue_tokens`: split on runs of `,`, newline, `;`, `|`;
strip the parts and drop blanks; at most one part falls back to the raw
stripped value. -/
def splitMultivalueTokens (value : String) : List String :=
  let raw := strTrim value
  if raw = "" then []
  else
    let parts := ((splitRunsBy (fun c => multiSepChars.contains c) raw.data).map
      (fun p => strTrim ⟨p⟩)).filter (fun p => p != "")
    if 1 < parts.length then parts else [raw]

/-- `_extract_normalized_keys`. -/
def extractNormalizedKeys (value : String) (keyClass : String) : List String :=
  let tokens := if keyClass = "domain" ∨ keyClass = "linkedin" ∨ keyClass = "email" then
      splitMultivalueTokens value
    else [value]
  tokens.foldl (fun out token =>
    let key :=
      if keyClass = "domain" then normalizeDomainKey token
      else if keyClass = "linkedin" then normalizeLinkedinKey token
      else if keyClass = "email" then normalizeEmailKey token
      else normalizeCompanyText token
    if key = "" ∨ out.contains key = true ∨ junkKeys.contains key = true then out
    else out ++ [key]) []

/-- The per-class column-name hints of `guess_key_columns`. -/
def dedupeClassHints (kc : String) : List String :=
  if kc = "domain" then ["domain", "website", "url", "homepage"]
  else if kc = "linkedin" then ["linkedin", "li url", "linkedin url"]
  else if kc = "email" then ["email", "e-mail", "mail"]
  else ["company", "account", "organization", "org", "name"]

def companyExclusions : List String :=
  [" id", "ids", "owner", "associated", "parent", "child", "deal", "ticket",
   "contact", "project", "quote", "task", "lead", "campaign", "source", "record",
   "date", "time", "number of", "count", "industry", "keyword", "domain", "url",
   "facebook", "linkedin", "twitter", "revenue", "employee", "country", "state",
   "city", "postal", "phone", "address"]

def domainExclusions : List String :=
  ["logo", "technolog", "pagerank", "page rank", "tranco", "umbrella"]

def emailExclusions : List String :=
  ["email owner", "email status", "email type", "email domain", "email count"]

def nameExclusions : List String := ["first name", "last name", "fullname", "full name"]

/-- One class of `guess_key_columns`: columns whose lowercase name holds
a hint and trips no exclusion. -/
def guessKeyCols (kc : String) (columns : List String) : List String :=
  columns.filter (fun col =>
    let cl := strLower col
    !(kc == "domain" && strInfix "linkedin" cl) &&
    !(kc == "domain" && domainExclusions.any (fun t => strInfix t cl)) &&
    !(kc == "linkedin" && !(strInfix "linkedin" cl || strInfix "li url" cl)) &&
    !(kc == "email" && emailExclusions.any (fun t => strInfix t cl)) &&
    !(kc == "company" && nameExclusions.any (fun t => strInfix t cl)) &&
    !(kc == "company" && companyExclusions.any (fun t => strInfix t cl)) &&
    (dedupeClassHints kc).any (fun h => strInfix h cl))

structure DedupeMatch where
  keyType : String
  sourceColumn : String
  sourceColumns : List String
  hubspotColumn : String
  hubspotColumns : List String
deriving Repr, DecidableEq

/-- `infer_dedupe_matches`. -/
def inferDedupeMatches (sourceColumns dedupeColumns : List String) : List DedupeMatch :=
  ["domain", "linkedin", "email", "company"].filterMap (fun kt =>
    match guessKeyCols kt sourceColumns, guessKeyCols kt dedupeColumns with
    | [], _ => none
    | _, [] => none
    | c0 :: cs, h0 :: hs =>
      if c0 = "" then none else some ⟨kt, c0, c0 :: cs, h0, h0 :: hs⟩)

/-- A qualified frame: columns plus id-carrying rows. -/
structure Frame where
  cols : List String
  rows : List Row

/-- The HubSpot reference frame. -/
structure HubFrame where
  cols : List String
  rows : List Record

/-- `df[col].cast(Utf8).drop_nulls().to_list()`. -/
def hubColValues (hub : HubFrame) (c : String) : List String :=
  hub.rows.filterMap (fun r => recordGet r c)

/-- One usable key class of the dedupe loop. -/
structure DedupeClassInfo where
  keyClass : String
  sourceCols : List String
  refKeys : List String
  useFuzzy : Bool
deriving Repr, DecidableEq

/-- The reference key set of one class (first-seen order, deduplicated). -/
def buildRefKeys (hub : HubFrame) (hubCols : List String) (kc : String) : List String :=
  hubCols.foldl (fun acc c =>
    if hub.cols.contains c then
      (hubColValues hub c).foldl (fun a v =>
        (extractNormalizedKeys v kc).foldl (fun a2 k =>
          if a2.contains k then a2 else a2 ++ [k]) a) acc
    else acc) []

/-- The match loop of `apply_hubspot_dedupe`: the classes that survive all
the `continue` guards, with their source columns, reference keys and
fuzzy flag (`company` with at most 50 000 reference keys). -/
def buildClassInfos (qcols : List String) (hub : HubFrame) : List DedupeClassInfo :=
  (inferDedupeMatches qcols hub.cols).filterMap (fun m =>
    let sourceCols0 := m.sourceColumns.filter (fun c => strTrim c != "" && qcols.contains c)
    let sourceCols := if sourceCols0.isEmpty then
        (if m.sourceColumn ≠ "" ∧ qcols.contains m.sourceColumn = true then [m.sourceColumn]
         else [])
      else sourceCols0
    let hubCols := m.hubspotColumns.filter (fun c => strTrim c != "")
    if m.keyType = "" ∨ sourceCols = [] ∨ hubCols = [] then none
    else
      let refKeys := buildRefKeys hub hubCols m.keyType
      if refKeys = [] then none
      else some ⟨m.keyType, sourceCols, refKeys,
        m.keyType == "company" && decide (refKeys.length ≤ 50000)⟩)

/-- `_fuzzy_matches_any` at threshold 90. -/
def fuzzyMatchesAny (ratio : String → String → Rat) (k : String) (refs : List String) :
    Bool :=
  if k = "" ∨ refs = [] then false
  else refs.any (fun ref => decide ((90 : Rat) ≤ ratio k ref))

/-- The per-cell hit mask of one class; `map_elements` leaves nulls in
place (`skip_nulls`), so a null cell keeps a null mask. -/
def classHitCell (ratio : String → String → Rat) (info : DedupeClassInfo)
    (v : CellValue) : KBool :=
  match v with
  | none => none
  | some s => some ((extractNormalizedKeys s info.keyClass).any (fun k =>
      info.refKeys.contains k || (info.useFuzzy && fuzzyMatchesAny ratio k info.refKeys)))

/-- The per-cell key-presence mask of one class. -/
def classKeyCell (info : DedupeClassInfo) (v : CellValue) : KBool :=
  match v with
  | none => none
  | some s => some (!(extractNormalizedKeys s info.keyClass).isEmpty)

/-- Column masks or-combined; `some false` is the Kleene identity of
`kor`, matching the `None`-seeded fold of the source. -/
def classMaskOr (ms : List KBool) : KBool := ms.foldl kor (some false)

def classHitMask (ratio : String → String → Rat) (info : DedupeClassInfo)
    (r : Record) : KBool :=
  classMaskOr (info.sourceCols.map (fun c => classHitCell ratio info (recordGet r c)))

def classKeyMask (info : DedupeClassInfo) (r : Record) : KBool :=
  classMaskOr (info.sourceCols.map (fun c => classKeyCell info (recordGet r c)))

def strongClassNames : List String := ["domain", "linkedin", "email"]

def strongHitMask (ratio : String → String → Rat) (infos : List DedupeClassInfo)
    (r : Record) : KBool :=
  classMaskOr ((infos.filter (fun i => strongClassNames.contains i.keyClass)).map
    (fun i => classHitMask ratio i r))

def strongKeyMask (infos : List DedupeClassInfo) (r : Record) : KBool :=
  classMaskOr ((infos.filter (fun i => strongClassNames.contains i.keyClass)).map
    (fun i => classKeyMask i r))

def companyHitMask (ratio : String → String → Rat) (infos : List DedupeClassInfo)
    (r : Record) : KBool :=
  classMaskOr ((infos.filter (fun i => i.keyClass == "company")).map
    (fun i => classHitMask ratio i r))

/-- `remove_mask = strong_hit | (~strong_key_present & company_hit)`. -/
def dedupeRemoveMask (ratio : String → String → Rat) (infos : List DedupeClassInfo)
    (r : Record) : KBool :=
  kor (strongHitMask ratio infos r)
    (kand (knot (strongKeyMask infos r)) (companyHitMask ratio infos r))

/-- `apply_hubspot_dedupe`: the surviving frame (`filter(~remove_mask)`),
with the early returns for empty frames, no inferred match and no active
match. -/
def applyHubspotDedupe (ratio : String → String → Rat) (q : Frame) (hub : HubFrame) :
    List Row :=
  if q.rows.isEmpty || hub.rows.isEmpty then q.rows
  else if (inferDedupeMatches q.cols hub.cols).isEmpty then q.rows
  else
    let infos := buildClassInfos q.cols hub
    if infos.isEmpty then q.rows
    else q.rows.filter (fun row => knot (dedupeRemoveMask ratio infos row.2) == some true)

/-- Spec-side: the row hits the reference set of one class — some source
column of the class yields a key that matches a reference key exactly, or
fuzzily at similarity at least 90 when fuzzy matching is on. -/
def rowClassHit (ratio : String → String → Rat) (info : DedupeClassInfo)
    (r : Record) : Prop :=
  ∃ c ∈ info.sourceCols, ∃ s, recordGet r c = some s ∧
    ∃ k ∈ extractNormalizedKeys s info.keyClass,
      k ∈ info.refKeys ∨ (info.useFuzzy = true ∧ k ≠ "" ∧
        ∃ ref ∈ info.refKeys, (90 : Rat) ≤ ratio k ref)

/-- Spec-side: the row holds a key of one class. -/
def rowClassKey (info : DedupeClassInfo) (r : Record) : Prop :=
  ∃ c ∈ info.sourceCols, ∃ s, recordGet r c = some s ∧
    extractNormalizedKeys s info.keyClass ≠ []

/-- Spec-side: a strong-class (domain/linkedin/email) hit among the
active classes. -/
def rowStrongHit (ratio : String → String → Rat) (infos : List DedupeClassInfo)
    (r : Record) : Prop :=
  ∃ info ∈ infos, info.keyClass ∈ strongClassNames ∧ rowClassHit ratio info r

/-- Spec-side: the row holds a strong key in some active strong class. -/
def rowStrongKey (infos : List DedupeClassInfo) (r : Record) : Prop :=
  ∃ info ∈ infos, info.keyClass ∈ strongClassNames ∧ rowClassKey info r

/-- Spec-side: a company-name match among the active classes. -/
def rowCompanyHit (ratio : String → String → Rat) (infos : List DedupeClassInfo)
    (r : Record) : Prop :=
  ∃ info ∈ infos, info.keyClass = "company" ∧ rowClassHit ratio info r

theorem kor_some_some (a b : Bool) : kor (some a) (some b) = some (a || b) := by
  cases a <;> cases b <;> rfl

theorem kand_some_some (a b : Bool) : kand (some a) (some b) = some (a && b) := by
  cases a <;> cases b <;> rfl

theorem knot_some (a : Bool) : knot (some a) = some (!a) := rfl

theorem beq_some_true (b : Bool) : ((some b : KBool) == some true) = b := by
  cases b <;> rfl

theorem foldl_kor_some (ms : List KBool) (b : Bool)
    (h : ∀ x ∈ ms, x.isSome = true) :
    ms.foldl kor (some b) = some (b || ms.any (fun x => x == some true)) := by
  induction ms generalizing b with
  | nil => simp
  | cons x tl ih =>
    obtain ⟨bx, rfl⟩ := Option.isSome_iff_exists.mp (h x (by simp))
    rw [List.foldl_cons, kor_some_some, ih (b || bx) (fun y hy => h y (by simp [hy]))]
    simp [beq_some_true, Bool.or_assoc]

theorem anyMapGeneral {α β : Type} (f : α → β) (l : List α) (p : β → Bool) :
    (l.map f).any p = l.any (fun a => p (f a)) := by
  induction l with
  | nil => rfl
  | cons x tl ih => simp [List.any_cons, ih]

theorem classMaskOr_some (ms : List KBool) (h : ∀ x ∈ ms, x.isSome = true) :
    classMaskOr ms = some (ms.any (fun x => x == some true)) := by
  unfold classMaskOr
  rw [foldl_kor_some ms false h]
  simp

theorem fuzzyMatchesAny_iff (ratio : String → String → Rat) (k : String)
    (refs : List String) :
    fuzzyMatchesAny ratio k refs = true ↔
      (k ≠ "" ∧ ∃ ref ∈ refs, (90 : Rat) ≤ ratio k ref) := by
  unfold fuzzyMatchesAny
  by_cases hg : k = "" ∨ refs = []
  · rw [if_pos hg]
    constructor
    · intro h
      exact absurd h (by decide)
    · rintro ⟨hk, ref, href, _⟩
      rcases hg with hg | hg
      · exact absurd hg hk
      · subst hg
        exact absurd href (by simp)
  · rw [if_neg hg]
    push_neg at hg
    simp [List.any_eq_true, hg.1]

theorem classHitCell_true_iff (ratio : String → String → Rat) (info : DedupeClassInfo)
    (v : CellValue) :
    (classHitCell ratio info v == some true) = true ↔
      (∃ s, v = some s ∧ ∃ k ∈ extractNormalizedKeys s info.keyClass,
        k ∈ info.refKeys ∨ (info.useFuzzy = true ∧ k ≠ "" ∧
          ∃ ref ∈ info.refKeys, (90 : Rat) ≤ ratio k ref)) := by
  cases v with
  | none =>
    constructor
    · intro hcontra
      exact absurd hcontra
        (by rw [show classHitCell ratio info none = none from rfl]; decide)
    · rintro ⟨s, hs, _⟩
      cases hs
  | some s =>
    rw [show classHitCell ratio info (some s) =
        some ((extractNormalizedKeys s info.keyClass).any (fun k =>
          info.refKeys.contains k ||
            (info.useFuzzy && fuzzyMatchesAny ratio k info.refKeys))) from rfl,
      beq_some_true]
    simp only [List.any_eq_true, Bool.or_eq_true, Bool.and_eq_true,
      List.contains_iff_exists_mem_beq, beq_iff_eq, fuzzyMatchesAny_iff]
    constructor
    · rintro ⟨k, hk, h⟩
      refine ⟨s, rfl, k, hk, ?_⟩
      rcases h with ⟨r, hr, rfl⟩ | ⟨hf, hk0, hr⟩
      · exact Or.inl hr
      · exact Or.inr ⟨hf, hk0, hr⟩
    · rintro ⟨s', hs', k, hk, h⟩
      cases hs'
      refine ⟨k, hk, ?_⟩
      rcases h with hr | ⟨hf, hk0, hr⟩
      · exact Or.inl ⟨k, hr, rfl⟩
      · exact Or.inr ⟨hf, hk0, hr⟩

theorem classKeyCell_true_iff (info : DedupeClassInfo) (v : CellValue) :
    (classKeyCell info v == some true) = true ↔
      (∃ s, v = some s ∧ extractNormalizedKeys s info.keyClass ≠ []) := by
  cases v with
  | none =>
    constructor
    · intro hcontra
      exact absurd hcontra
        (by rw [show classKeyCell info none = none from rfl]; decide)
    · rintro ⟨s, hs, _⟩
      cases hs
  | some s =>
    rw [show classKeyCell info (some s) =
        some (!(extractNormalizedKeys s info.keyClass).isEmpty) from rfl, beq_some_true]
    simp

theorem classHitMask_eq (ratio : String → String → Rat) (info : DedupeClassInfo)
    (r : Record) (h : ∀ c ∈ info.sourceCols, (recordGet r c).isSome = true) :
    classHitMask ratio info r = some (info.sourceCols.any
      (fun c => classHitCell ratio info (recordGet r c) == some true)) := by
  unfold classHitMask
  rw [classMaskOr_some]
  · rw [anyMapGeneral]
  · intro x hx
    obtain ⟨c, hc, rfl⟩ := List.mem_map.mp hx
    obtain ⟨s, hs⟩ := Option.isSome_iff_exists.mp (h c hc)
    rw [hs]
    rfl

theorem classKeyMask_eq (info : DedupeClassInfo) (r : Record)
    (h : ∀ c ∈ info.sourceCols, (recordGet r c).isSome = true) :
    classKeyMask info r = some (info.sourceCols.any
      (fun c => classKeyCell info (recordGet r c) == some true)) := by
  unfold classKeyMask
  rw [classMaskOr_some]
  · rw [anyMapGeneral]
  · intro x hx
    obtain ⟨c, hc, rfl⟩ := List.mem_map.mp hx
    obtain ⟨s, hs⟩ := Option.isSome_iff_exists.mp (h c hc)
    rw [hs]
    rfl

theorem classHitMask_true_iff (ratio : String → String → Rat) (info : DedupeClassInfo)
    (r : Record) (h : ∀ c ∈ info.sourceCols, (recordGet r c).isSome = true) :
    (classHitMask ratio info r == some true) = true ↔ rowClassHit ratio info r := by
  rw [classHitMask_eq ratio info r h, beq_some_true]
  unfold rowClassHit
  simp only [List.any_eq_true, classHitCell_true_iff]

theorem classKeyMask_true_iff (info : DedupeClassInfo) (r : Record)
    (h : ∀ c ∈ info.sourceCols, (recordGet r c).isSome = true) :
    (classKeyMask info r == some true) = true ↔ rowClassKey info r := by
  rw [classKeyMask_eq info r h, beq_some_true]
  unfold rowClassKey
  simp only [List.any_eq_true, classKeyCell_true_iff]

theorem strongHitMask_eq (ratio : String → String → Rat)
    (infos : List DedupeClassInfo) (r : Record)
    (h : ∀ info ∈ infos, ∀ c ∈ info.sourceCols, (recordGet r c).isSome = true) :
    strongHitMask ratio infos r = some
      ((infos.filter (fun i => strongClassNames.contains i.keyClass)).any
        (fun i => classHitMask ratio i r == some true)) := by
  unfold strongHitMask
  rw [classMaskOr_some]
  · rw [anyMapGeneral]
  · intro x hx
    obtain ⟨i, hi, rfl⟩ := List.mem_map.mp hx
    rw [classHitMask_eq ratio i r (h i (List.mem_filter.mp hi).1)]
    rfl

theorem strongKeyMask_eq (infos : List DedupeClassInfo) (r : Record)
    (h : ∀ info ∈ infos, ∀ c ∈ info.sourceCols, (recordGet r c).isSome = true) :
    strongKeyMask infos r = some
      ((infos.filter (fun i => strongClassNames.contains i.keyClass)).any
        (fun i => classKeyMask i r == some true)) := by
  unfold strongKeyMask
  rw [classMaskOr_some]
  · rw [anyMapGeneral]
  · intro x hx
    obtain ⟨i, hi, rfl⟩ := List.mem_map.mp hx
    rw [classKeyMask_eq i r (h i (List.mem_filter.mp hi).1)]
    rfl

theorem companyHitMask_eq (ratio : String → String → Rat)
    (infos : List DedupeClassInfo) (r : Record)
    (h : ∀ info ∈ infos, ∀ c ∈ info.sourceCols, (recordGet r c).isSome = true) :
    companyHitMask ratio infos r = some
      ((infos.filter (fun i => i.keyClass == "company")).any
        (fun i => classHitMask ratio i r == some true)) := by
  unfold companyHitMask
  rw [classMaskOr_some]
  · rw [anyMapGeneral]
  · intro x hx
    obtain ⟨i, hi, rfl⟩ := List.mem_map.mp hx
    rw [classHitMask_eq ratio i r (h i (List.mem_filter.mp hi).1)]
    rfl

theorem strongHitMask_true_iff (ratio : String → String → Rat)
    (infos : List DedupeClassInfo) (r : Record)
    (h : ∀ info ∈ infos, ∀ c ∈ info.sourceCols, (recordGet r c).isSome = true) :
    (strongHitMask ratio infos r == some true) = true ↔ rowStrongHit ratio infos r := by
  rw [strongHitMask_eq ratio infos r h, beq_some_true]
  unfold rowStrongHit
  simp only [List.any_eq_true, List.mem_filter]
  constructor
  · rintro ⟨i, ⟨hi, hstrong⟩, hhit⟩
    exact ⟨i, hi, List.elem_iff.mp hstrong,
      (classHitMask_true_iff ratio i r (h i hi)).mp hhit⟩
  · rintro ⟨i, hi, hstrong, hhit⟩
    exact ⟨i, ⟨hi, List.elem_iff.mpr hstrong⟩,
      (classHitMask_true_iff ratio i r (h i hi)).mpr hhit⟩

theorem strongKeyMask_true_iff (infos : List DedupeClassInfo) (r : Record)
    (h : ∀ info ∈ infos, ∀ c ∈ info.sourceCols, (recordGet r c).isSome = true) :
    (strongKeyMask infos r == some true) = true ↔ rowStrongKey infos r := by
  rw [strongKeyMask_eq infos r h, beq_some_true]
  unfold rowStrongKey
  simp only [List.any_eq_true, List.mem_filter]
  constructor
  · rintro ⟨i, ⟨hi, hstrong⟩, hkey⟩
    exact ⟨i, hi, List.elem_iff.mp hstrong,
      (classKeyMask_true_iff i r (h i hi)).mp hkey⟩
  · rintro ⟨i, hi, hstrong, hkey⟩
    exact ⟨i, ⟨hi, List.elem_iff.mpr hstrong⟩,
      (classKeyMask_true_iff i r (h i hi)).mpr hkey⟩

theorem companyHitMask_true_iff (ratio : String → String → Rat)
    (infos : List DedupeClassInfo) (r : Record)
    (h : ∀ info ∈ infos, ∀ c ∈ info.sourceCols, (recordGet r c).isSome = true) :
    (companyHitMask ratio infos r == some true) = true ↔ rowCompanyHit ratio infos r := by
  rw [companyHitMask_eq ratio infos r h, beq_some_true]
  unfold rowCompanyHit
  simp only [List.any_eq_true, List.mem_filter]
  constructor
  · rintro ⟨i, ⟨hi, hco⟩, hhit⟩
    exact ⟨i, hi, beq_iff_eq.mp hco, (classHitMask_true_iff ratio i r (h i hi)).mp hhit⟩
  · rintro ⟨i, hi, hco, hhit⟩
    exact ⟨i, ⟨hi, beq_iff_eq.mpr hco⟩, (classHitMask_true_iff ratio i r (h i hi)).mpr hhit⟩

/-- Spec-side: some source column of the class holds a null cell
(`map_elements` then propagates the null into the mask). -/
def rowClassNull (info : DedupeClassInfo) (r : Record) : Prop :=
  ∃ c ∈ info.sourceCols, recordGet r c = none

/-- Spec-side: a null cell in some active strong class's source column. -/
def rowStrongNull (infos : List DedupeClassInfo) (r : Record) : Prop :=
  ∃ info ∈ infos, info.keyClass ∈ strongClassNames ∧ rowClassNull info r

/-- Spec-side: a null cell in some active company class's source column. -/
def rowCompanyNull (infos : List DedupeClassInfo) (r : Record) : Prop :=
  ∃ info ∈ infos, info.keyClass = "company" ∧ rowClassNull info r

theorem kor_eq_some_true (a b : KBool) :
    kor a b = some true ↔ (a = some true ∨ b = some true) := by
  rcases a with _ | (_ | _) <;> rcases b with _ | (_ | _) <;> decide

theorem kor_eq_some_false (a b : KBool) :
    kor a b = some false ↔ (a = some false ∧ b = some false) := by
  rcases a with _ | (_ | _) <;> rcases b with _ | (_ | _) <;> decide

theorem kand_eq_some_false (a b : KBool) :
    kand a b = some false ↔ (a = some false ∨ b = some false) := by
  rcases a with _ | (_ | _) <;> rcases b with _ | (_ | _) <;> decide

theorem knot_eq_some_false (a : KBool) : knot a = some false ↔ a = some true := by
  rcases a with _ | (_ | _) <;> decide

theorem knot_beq_some_true (x : KBool) :
    ((knot x == some true) = true) ↔ x = some false := by
  rcases x with _ | (_ | _) <;> decide

theorem foldl_kor_true_iff (ms : List KBool) (a : KBool) :
    ms.foldl kor a = some true ↔ (a = some true ∨ ∃ x ∈ ms, x = some true) := by
  induction ms generalizing a with
  | nil => simp
  | cons x tl ih =>
    rw [List.foldl_cons, ih (kor a x), kor_eq_some_true]
    constructor
    · rintro ((h | h) | ⟨y, hy, hyt⟩)
      · exact Or.inl h
      · exact Or.inr ⟨x, by simp, h⟩
      · exact Or.inr ⟨y, by simp [hy], hyt⟩
    · rintro (h | ⟨y, hy, hyt⟩)
      · exact Or.inl (Or.inl h)
      · rcases List.mem_cons.mp hy with rfl | hy2
        · exact Or.inl (Or.inr hyt)
        · exact Or.inr ⟨y, hy2, hyt⟩

theorem foldl_kor_false_iff (ms : List KBool) (a : KBool) :
    ms.foldl kor a = some false ↔ (a = some false ∧ ∀ x ∈ ms, x = some false) := by
  induction ms generalizing a with
  | nil => simp
  | cons x tl ih =>
    rw [List.foldl_cons, ih (kor a x), kor_eq_some_false]
    constructor
    · rintro ⟨⟨ha, hx⟩, htl⟩
      exact ⟨ha, fun y hy => (List.mem_cons.mp hy).elim (fun he => he ▸ hx) (htl y)⟩
    · rintro ⟨ha, hall⟩
      exact ⟨⟨ha, hall x (by simp)⟩, fun y hy => hall y (by simp [hy])⟩

theorem classHitCell_some_true_iff (ratio : String → String → Rat)
    (info : DedupeClassInfo) (v : CellValue) :
    classHitCell ratio info v = some true ↔
      (∃ s, v = some s ∧ ∃ k ∈ extractNormalizedKeys s info.keyClass,
        k ∈ info.refKeys ∨ (info.useFuzzy = true ∧ k ≠ "" ∧
          ∃ ref ∈ info.refKeys, (90 : Rat) ≤ ratio k ref)) :=
  beq_iff_eq.symm.trans (classHitCell_true_iff ratio info v)

theorem classKeyCell_some_true_iff (info : DedupeClassInfo) (v : CellValue) :
    classKeyCell info v = some true ↔
      (∃ s, v = some s ∧ extractNormalizedKeys s info.keyClass ≠ []) :=
  beq_iff_eq.symm.trans (classKeyCell_true_iff info v)

theorem classHitMask_some_true_iff (ratio : String → String → Rat)
    (info : DedupeClassInfo) (r : Record) :
    classHitMask ratio info r = some true ↔ rowClassHit ratio info r := by
  unfold classHitMask classMaskOr
  rw [foldl_kor_true_iff]
  constructor
  · rintro (habs | ⟨x, hx, hxt⟩)
    · exact absurd habs (by decide)
    · obtain ⟨c, hc, rfl⟩ := List.mem_map.mp hx
      obtain ⟨s, hs, hr⟩ := (classHitCell_some_true_iff ratio info _).mp hxt
      exact ⟨c, hc, s, hs, hr⟩
  · rintro ⟨c, hc, s, hs, hr⟩
    exact Or.inr ⟨_, List.mem_map_of_mem _ hc,
      (classHitCell_some_true_iff ratio info _).mpr ⟨s, hs, hr⟩⟩

theorem classKeyMask_some_true_iff (info : DedupeClassInfo) (r : Record) :
    classKeyMask info r = some true ↔ rowClassKey info r := by
  unfold classKeyMask classMaskOr
  rw [foldl_kor_true_iff]
  constructor
  · rintro (habs | ⟨x, hx, hxt⟩)
    · exact absurd habs (by decide)
    · obtain ⟨c, hc, rfl⟩ := List.mem_map.mp hx
      obtain ⟨s, hs, hr⟩ := (classKeyCell_some_true_iff info _).mp hxt
      exact ⟨c, hc, s, hs, hr⟩
  · rintro ⟨c, hc, s, hs, hr⟩
    exact Or.inr ⟨_, List.mem_map_of_mem _ hc,
      (classKeyCell_some_true_iff info _).mpr ⟨s, hs, hr⟩⟩

theorem classHitMask_some_false_iff (ratio : String → String → Rat)
    (info : DedupeClassInfo) (r : Record) :
    classHitMask ratio info r = some false ↔
      (¬ rowClassNull info r ∧ ¬ rowClassHit ratio info r) := by
  unfold classHitMask classMaskOr
  rw [foldl_kor_false_iff]
  constructor
  · rintro ⟨-, hall⟩
    constructor
    · rintro ⟨c, hc, hnone⟩
      have h := hall _ (List.mem_map_of_mem _ hc)
      rw [hnone] at h
      rw [show classHitCell ratio info none = none from rfl] at h
      exact Option.noConfusion h
    · rintro ⟨c, hc, s, hs, hr⟩
      have h := hall _ (List.mem_map_of_mem _ hc)
      have ht : classHitCell ratio info (recordGet r c) = some true :=
        (classHitCell_some_true_iff ratio info _).mpr ⟨s, hs, hr⟩
      rw [ht] at h
      exact absurd h (by decide)
  · rintro ⟨hnull, hhit⟩
    refine ⟨rfl, ?_⟩
    intro x hx
    obtain ⟨c, hc, rfl⟩ := List.mem_map.mp hx
    cases hv : recordGet r c with
    | none => exact absurd ⟨c, hc, hv⟩ hnull
    | some s =>
      obtain ⟨b, hb⟩ : ∃ b, classHitCell ratio info (some s) = some b := ⟨_, rfl⟩
      rw [hb]
      cases b with
      | false => rfl
      | true =>
        obtain ⟨s2, hs2, hr⟩ := (classHitCell_some_true_iff ratio info (some s)).mp hb
        refine absurd ?_ hhit
        refine ⟨c, hc, s, hv, ?_⟩
        rw [Option.some.inj hs2]
        exact hr

theorem strongHitMask_some_true_iff (ratio : String → String → Rat)
    (infos : List DedupeClassInfo) (r : Record) :
    strongHitMask ratio infos r = some true ↔ rowStrongHit ratio infos r := by
  unfold strongHitMask classMaskOr
  rw [foldl_kor_true_iff]
  constructor
  · rintro (habs | ⟨x, hx, hxt⟩)
    · exact absurd habs (by decide)
    · obtain ⟨i, hi, rfl⟩ := List.mem_map.mp hx
      have him := List.mem_filter.mp hi
      exact ⟨i, him.1, List.elem_iff.mp him.2, (classHitMask_some_true_iff ratio i r).mp hxt⟩
  · rintro ⟨i, hi, hstrong, hhit⟩
    exact Or.inr ⟨_, List.mem_map_of_mem _ (List.mem_filter.mpr ⟨hi, List.elem_iff.mpr hstrong⟩),
      (classHitMask_some_true_iff ratio i r).mpr hhit⟩

theorem strongKeyMask_some_true_iff (infos : List DedupeClassInfo) (r : Record) :
    strongKeyMask infos r = some true ↔ rowStrongKey infos r := by
  unfold strongKeyMask classMaskOr
  rw [foldl_kor_true_iff]
  constructor
  · rintro (habs | ⟨x, hx, hxt⟩)
    · exact absurd habs (by decide)
    · obtain ⟨i, hi, rfl⟩ := List.mem_map.mp hx
      have him := List.mem_filter.mp hi
      exact ⟨i, him.1, List.elem_iff.mp him.2, (classKeyMask_some_true_iff i r).mp hxt⟩
  · rintro ⟨i, hi, hstrong, hkey⟩
    exact Or.inr ⟨_, List.mem_map_of_mem _ (List.mem_filter.mpr ⟨hi, List.elem_iff.mpr hstrong⟩),
      (classKeyMask_some_true_iff i r).mpr hkey⟩

theorem strongHitMask_some_false_iff (ratio : String → String → Rat)
    (infos : List DedupeClassInfo) (r : Record) :
    strongHitMask ratio infos r = some false ↔
      (¬ rowStrongHit ratio infos r ∧ ¬ rowStrongNull infos r) := by
  unfold strongHitMask classMaskOr
  rw [foldl_kor_false_iff]
  constructor
  · rintro ⟨-, hall⟩
    constructor
    · rintro ⟨i, hi, hstrong, hhit⟩
      have h := hall _ (List.mem_map_of_mem _
        (List.mem_filter.mpr ⟨hi, List.elem_iff.mpr hstrong⟩))
      rw [(classHitMask_some_true_iff ratio i r).mpr hhit] at h
      exact absurd h (by decide)
    · rintro ⟨i, hi, hstrong, hnull⟩
      have h := hall _ (List.mem_map_of_mem _
        (List.mem_filter.mpr ⟨hi, List.elem_iff.mpr hstrong⟩))
      rw [classHitMask_some_false_iff] at h
      exact h.1 hnull
  · rintro ⟨hhit, hnull⟩
    refine ⟨rfl, ?_⟩
    intro x hx
    obtain ⟨i, hi, rfl⟩ := List.mem_map.mp hx
    have him := List.mem_filter.mp hi
    rw [classHitMask_some_false_iff]
    exact ⟨fun hn => hnull ⟨i, him.1, List.elem_iff.mp him.2, hn⟩,
      fun hh => hhit ⟨i, him.1, List.elem_iff.mp him.2, hh⟩⟩

theorem companyHitMask_some_false_iff (ratio : String → String → Rat)
    (infos : List DedupeClassInfo) (r : Record) :
    companyHitMask ratio infos r = some false ↔
      (¬ rowCompanyHit ratio infos r ∧ ¬ rowCompanyNull infos r) := by
  unfold companyHitMask classMaskOr
  rw [foldl_kor_false_iff]
  constructor
  · rintro ⟨-, hall⟩
    constructor
    · rintro ⟨i, hi, hco, hhit⟩
      have h := hall _ (List.mem_map_of_mem _
        (List.mem_filter.mpr ⟨hi, beq_iff_eq.mpr hco⟩))
      rw [(classHitMask_some_true_iff ratio i r).mpr hhit] at h
      exact absurd h (by decide)
    · rintro ⟨i, hi, hco, hnull⟩
      have h := hall _ (List.mem_map_of_mem _
        (List.mem_filter.mpr ⟨hi, beq_iff_eq.mpr hco⟩))
      rw [classHitMask_some_false_iff] at h
      exact h.1 hnull
  · rintro ⟨hhit, hnull⟩
    refine ⟨rfl, ?_⟩
    intro x hx
    obtain ⟨i, hi, rfl⟩ := List.mem_map.mp hx
    have him := List.mem_filter.mp hi
    rw [classHitMask_some_false_iff]
    exact ⟨fun hn => hnull ⟨i, him.1, beq_iff_eq.mp him.2, hn⟩,
      fun hh => hhit ⟨i, him.1, beq_iff_eq.mp him.2, hh⟩⟩

/-- C8: over the active key classes (those where both frames expose a
usable column and the reference file yields keys), a record is removed
exactly when it strong-matches on a domain/linkedin/email key, or a
strong class's source cell is null (the null mask drops the row), or —
when it holds no strong key in any ACTIVE strong class — its normalized
company name matches a reference name exactly or fuzzily (ratio ≥ 90,
fuzzy only with ≤ 50 000 reference keys) or a company cell is null; and
'acme.com' and 'www.ACME.com' normalize to the same domain key.  The
activity restriction is essential: a record holding a strong key in a
source column can still be removed by the company fallback when the
reference file has no strong-key column (see the counterexample). -/
theorem c8_dedupe_policy (ratio : String → String → Rat) (q : Frame) (hub : HubFrame)
    (row : Row) (hrow : row ∈ q.rows)
    (hq : q.rows ≠ []) (hh : hub.rows ≠ [])
    (hinfer : inferDedupeMatches q.cols hub.cols ≠ [])
    (hinfos : buildClassInfos q.cols hub ≠ []) :
    (row ∉ applyHubspotDedupe ratio q hub ↔
      rowStrongHit ratio (buildClassInfos q.cols hub) row.2 ∨
        rowStrongNull (buildClassInfos q.cols hub) row.2 ∨
        (¬ rowStrongKey (buildClassInfos q.cols hub) row.2 ∧
          (rowCompanyHit ratio (buildClassInfos q.cols hub) row.2 ∨
            rowCompanyNull (buildClassInfos q.cols hub) row.2))) ∧
    normalizeDomainKey "www.ACME.com" = "acme.com" ∧
    normalizeDomainKey "acme.com" = "acme.com" ∧
    normalizeCompanyText "Acme Inc" = normalizeCompanyText "Acme, Inc." := by
  refine ⟨?_, by decide, by decide, by decide⟩
  have hres : applyHubspotDedupe ratio q hub = q.rows.filter
      (fun r => knot (dedupeRemoveMask ratio (buildClassInfos q.cols hub) r.2) ==
        some true) := by
    unfold applyHubspotDedupe
    rw [if_neg (by simp [List.isEmpty_iff, hq, hh]),
      if_neg (by simp [List.isEmpty_iff, hinfer]),
      if_neg (by simp [List.isEmpty_iff, hinfos])]
  rw [hres, List.mem_filter]
  simp only [hrow, true_and]
  rw [knot_beq_some_true]
  unfold dedupeRemoveMask
  rw [kor_eq_some_false, kand_eq_some_false, knot_eq_some_false,
    strongHitMask_some_false_iff, strongKeyMask_some_true_iff,
    companyHitMask_some_false_iff]
  tauto

set_option maxHeartbeats 2000000 in
/-- C8 counterexample: with a company-only reference file, the domain
class is inactive, so a record that holds a strong domain key
(`Website = "acme.com"`) is still removed by the company-name fallback —
contradicting "only when the record holds no strong key at all in any
strong-key column". -/
theorem c8_dedupe_policy_counterexample :
    guessKeyCols "domain" ["Website", "Company"] = ["Website"] ∧
    extractNormalizedKeys "acme.com" "domain" = ["acme.com"] ∧
    applyHubspotDedupe (fun _ _ => 0)
      ⟨["Website", "Company"],
        [(0, [("Website", some "acme.com"), ("Company", some "Acme Inc")])]⟩
      ⟨["Company"], [[("Company", some "Acme, Inc.")]]⟩ = [] := by
  refine ⟨by decide, by decide, by decide⟩

set_option maxHeartbeats 2000000 in
/-- C8 witness: a single-column frame against a reference file holding
`www.ACME.com`; the record with `acme.com` is removed, and the removal is
equivalent to the strong-hit / strong-null / company-fallback
disjunction. -/
theorem c8_dedupe_policy_witness :
    ((0, [("Website", some "acme.com")]) ∉
        applyHubspotDedupe (fun _ _ => 0)
          ⟨["Website"], [(0, [("Website", some "acme.com")])]⟩
          ⟨["Website"], [[("Website", some "www.ACME.com")]]⟩ ↔
      rowStrongHit (fun _ _ => 0)
          (buildClassInfos ["Website"] ⟨["Website"], [[("Website", some "www.ACME.com")]]⟩)
          [("Website", some "acme.com")] ∨
        rowStrongNull
          (buildClassInfos ["Website"] ⟨["Website"], [[("Website", some "www.ACME.com")]]⟩)
          [("Website", some "acme.com")] ∨
        (¬ rowStrongKey
            (buildClassInfos ["Website"] ⟨["Website"], [[("Website", some "www.ACME.com")]]⟩)
            [("Website", some "acme.com")] ∧
          (rowCompanyHit (fun _ _ => 0)
              (buildClassInfos ["Website"] ⟨["Website"], [[("Website", some "www.ACME.com")]]⟩)
              [("Website", some "acme.com")] ∨
            rowCompanyNull
              (buildClassInfos ["Website"] ⟨["Website"], [[("Website", some "www.ACME.com")]]⟩)
              [("Website", some "acme.com")]))) ∧
    normalizeDomainKey "www.ACME.com" = "acme.com" ∧
    normalizeDomainKey "acme.com" = "acme.com" ∧
    normalizeCompanyText "Acme Inc" = normalizeCompanyText "Acme, Inc." :=
  c8_dedupe_policy (fun _ _ => 0)
    ⟨["Website"], [(0, [("Website", some "acme.com")])]⟩
    ⟨["Website"], [[("Website", some "www.ACME.com")]]⟩
    (0, [("Website", some "acme.com")])
    (by decide) (by decide) (by decide) (by decide) (by decide)

/-! ### Finalizing a paused run (claim C9) -/

/-- The status sets and reason maps a paused run has accumulated
(`run.get(...)` in `_finalize_paused_run`). -/
structure RunState where
  qualifiedIds : List Nat
  removedFilterIds : List Nat
  removedDomainIds : List Nat
  removedHubspotIds : List Nat
  removedIntraDedupeIds : List Nat
  removedFilterReasonById : List (Nat × String)
  removedDomainReasonById : List (Nat × String)
deriving Repr, DecidableEq

/-- `dict.get` on an id-keyed reason map. -/
def lookupNat (m : List (Nat × String)) (i : Nat) : Option String :=
  (m.find? (fun kv => kv.1 == i)).map Prod.snd

/-- `dict.setdefault`. -/
def setdefaultReason (m : List (Nat × String)) (i : Nat) (v : String) :
    List (Nat × String) :=
  if (lookupNat m i).isSome then m else m ++ [(i, v)]

/-- `unresolved_ids = all_ids - qualified - removed_filter - removed_domain
- removed_hubspot - removed_intra_dedupe` (empty when auto-disqualify is
off). -/
def finalizeUnresolvedIds (q : Frame) (run : RunState) (autoDisq : Bool) : List Nat :=
  if autoDisq then
    (q.rows.map Prod.fst).filter (fun i =>
      !run.qualifiedIds.contains i && !run.removedFilterIds.contains i &&
      !run.removedDomainIds.contains i && !run.removedHubspotIds.contains i &&
      !run.removedIntraDedupeIds.contains i)
  else []

/-- `removed_filter_ids` after the auto-disqualification loop. -/
def finalizeRemovedFilterIds (q : Frame) (run : RunState) (autoDisq : Bool) : List Nat :=
  run.removedFilterIds ++ finalizeUnresolvedIds q run autoDisq

/-- `removed_filter_reason_by_id` after the `setdefault` loop. -/
def finalizeFilterReasons (q : Frame) (run : RunState) (autoDisq : Bool) :
    List (Nat × String) :=
  (finalizeUnresolvedIds q run autoDisq).foldl
    (fun m i => setdefaultReason m i "paused_unprocessed") run.removedFilterReasonById

/-- The qualified working frame re-fed to the dedupe
(`df_with_id.filter(is_in(qualified_ids))`, or an empty head). -/
def finalizeWorking (q : Frame) (run : RunState) : List Row :=
  if run.qualifiedIds ≠ [] then q.rows.filter (fun r => run.qualifiedIds.contains r.1)
  else []

/-- The finalize-time `apply_hubspot_dedupe` pass over the working frame
(identity when no dedupe file is attached). -/
def finalizeDeduped (ratio : String → String → Rat) (q : Frame)
    (dedupeDf : Option HubFrame) (run : RunState) : List Row :=
  match dedupeDf with
  | none => finalizeWorking q run
  | some hub => applyHubspotDedupe ratio ⟨q.cols, finalizeWorking q run⟩ hub

/-- `qualified_ids` recomputed from the deduped frame. -/
def finalizeQualifiedIds (ratio : String → String → Rat) (q : Frame)
    (dedupeDf : Option HubFrame) (run : RunState) : List Nat :=
  (finalizeDeduped ratio q dedupeDf run).map Prod.fst

/-- `removed_hubspot_ids.update(pre_dedupe_ids - qualified_ids)`. -/
def finalizeHubspotIds (ratio : String → String → Rat) (q : Frame)
    (dedupeDf : Option HubFrame) (run : RunState) : List Nat :=
  run.removedHubspotIds ++
    ((finalizeWorking q run).map Prod.fst).filter
      (fun i => !(finalizeQualifiedIds ratio q dedupeDf run).contains i)

/-- The row-status `if/elif` chain of the finalize loop. -/
def finalizeRowStatus (qualIds rfIds rdIds rhIds unresolved : List Nat)
    (rfReasons rdReasons : List (Nat × String)) (i : Nat) : String × String :=
  if qualIds.contains i then ("qualified", "qualified_passed_all_checks")
  else if rfIds.contains i then
    ("removed_filter", (lookupNat rfReasons i).getD "rule_filter_mismatch")
  else if rdIds.contains i then
    ("removed_domain",
      sanitizeDomainReason ("domain_" ++ (lookupNat rdReasons i).getD "unreachable"))
  else if rhIds.contains i then ("removed_hubspot", "hubspot_duplicate_match")
  else if unresolved.contains i then ("removed_filter", "paused_unprocessed")
  else ("removed_filter", (lookupNat rfReasons i).getD "rule_filter_mismatch")

/-- The status and reason `_finalize_paused_run` assigns to one row id. -/
def finalizeRowFor (ratio : String → String → Rat) (q : Frame)
    (dedupeDf : Option HubFrame) (run : RunState) (autoDisq : Bool) (i : Nat) :
    String × String :=
  finalizeRowStatus (finalizeQualifiedIds ratio q dedupeDf run)
    (finalizeRemovedFilterIds q run autoDisq) run.removedDomainIds
    (finalizeHubspotIds ratio q dedupeDf run) (finalizeUnresolvedIds q run autoDisq)
    (finalizeFilterReasons q run autoDisq) run.removedDomainReasonById i

/-- The observable outcome of `_finalize_paused_run`. -/
structure FinalizeResult where
  rows : List (Nat × String × String)
  runStatus : String
  runProgress : Rat
deriving Repr, DecidableEq

/-- `_finalize_paused_run`: per-row statuses/reasons plus the run update
(`status="done"`, `progress=1.0`). -/
def finalizePausedRun (ratio : String → String → Rat) (q : Frame)
    (dedupeDf : Option HubFrame) (run : RunState) (autoDisq : Bool) : FinalizeResult :=
  { rows := q.rows.map (fun r => (r.1, finalizeRowFor ratio q dedupeDf run autoDisq r.1)),
    runStatus := "done",
    runProgress := 1 }

theorem containsIffMem {α : Type} [BEq α] [LawfulBEq α] (l : List α) (a : α) :
    l.contains a = true ↔ a ∈ l := by
  rw [List.contains_iff_exists_mem_beq]
  constructor
  · rintro ⟨x, hx, hbeq⟩
    rw [show a = x from by simpa using hbeq]
    exact hx
  · intro h
    exact ⟨a, h, by simp⟩

theorem contains_eq_false_of_not_mem {α : Type} [BEq α] [LawfulBEq α] (l : List α)
    (a : α) (h : a ∉ l) : l.contains a = false := by
  rw [Bool.eq_false_iff]
  exact fun hc => h ((containsIffMem l a).mp hc)

theorem lookupNat_append (m : List (Nat × String)) (j : Nat) (v : String) (i : Nat) :
    lookupNat (m ++ [(j, v)]) i =
      match lookupNat m i with
      | some r => some r
      | none => if i = j then some v else none := by
  unfold lookupNat
  rw [List.find?_append]
  cases hf : List.find? (fun kv => kv.1 == i) m with
  | some kv => simp
  | none =>
    by_cases hij : i = j
    · subst hij
      simp [List.find?]
    · rw [if_neg hij]
      simp [List.find?, show (j == i) = false from by
        simp [beq_iff_eq]; exact fun he => hij he.symm]

theorem lookupNat_setdefault_fold (l : List Nat) (m : List (Nat × String)) (i : Nat)
    (v : String) :
    lookupNat (l.foldl (fun m j => setdefaultReason m j v) m) i =
      match lookupNat m i with
      | some r => some r
      | none => if i ∈ l then some v else none := by
  induction l generalizing m with
  | nil => cases h : lookupNat m i <;> simp [h]
  | cons j tl ih =>
    rw [List.foldl_cons, ih]
    unfold setdefaultReason
    by_cases hm : (lookupNat m j).isSome
    · rw [if_pos hm]
      cases h : lookupNat m i with
      | some r => simp [h]
      | none =>
        simp only [h]
        by_cases hij : i = j
        · subst hij
          rw [h] at hm
          exact absurd hm (by simp)
        · simp [List.mem_cons, hij]
    · rw [if_neg hm, lookupNat_append]
      cases h : lookupNat m i with
      | some r => simp [h]
      | none =>
        simp only [h]
        by_cases hij : i = j
        · subst hij
          simp
        · simp [List.mem_cons, hij]

theorem applyHubspotDedupe_subset (ratio : String → String → Rat) (q : Frame)
    (hub : HubFrame) (r : Row) (h : r ∈ applyHubspotDedupe ratio q hub) : r ∈ q.rows := by
  simp only [applyHubspotDedupe] at h
  split at h
  · exact h
  · split at h
    · exact h
    · split at h
      · exact h
      · exact List.mem_of_mem_filter h

theorem finalizeWorking_mem (q : Frame) (run : RunState) (r : Row)
    (h : r ∈ finalizeWorking q run) : r ∈ q.rows ∧ r.1 ∈ run.qualifiedIds := by
  unfold finalizeWorking at h
  split at h
  · have hp := List.of_mem_filter h
    have hp2 : run.qualifiedIds.contains r.1 = true := hp
    exact ⟨List.mem_of_mem_filter h, (containsIffMem run.qualifiedIds r.1).mp hp2⟩
  · cases h

theorem finalizeQualifiedIds_sub (ratio : String → String → Rat) (q : Frame)
    (dedupeDf : Option HubFrame) (run : RunState) (i : Nat)
    (h : i ∈ finalizeQualifiedIds ratio q dedupeDf run) : i ∈ run.qualifiedIds := by
  unfold finalizeQualifiedIds at h
  obtain ⟨r, hr, rfl⟩ := List.mem_map.mp h
  unfold finalizeDeduped at hr
  cases dedupeDf with
  | none => exact (finalizeWorking_mem q run r hr).2
  | some hub => exact (finalizeWorking_mem q run r (applyHubspotDedupe_subset _ _ _ r hr)).2

theorem finalizeUnresolved_excl (q : Frame) (run : RunState) (ad : Bool) (i : Nat)
    (h : i ∈ finalizeUnresolvedIds q run ad) :
    i ∉ run.qualifiedIds ∧ i ∉ run.removedFilterIds ∧ i ∉ run.removedDomainIds ∧
      i ∉ run.removedHubspotIds := by
  unfold finalizeUnresolvedIds at h
  split at h
  · have hp := List.of_mem_filter h
    simp only [Bool.and_eq_true, Bool.not_eq_true'] at hp
    obtain ⟨⟨⟨⟨h1, h2⟩, h3⟩, h4⟩, h5⟩ := hp
    refine ⟨fun hm => ?_, fun hm => ?_, fun hm => ?_, fun hm => ?_⟩
    · rw [(containsIffMem run.qualifiedIds i).mpr hm] at h1
      exact Bool.noConfusion h1
    · rw [(containsIffMem run.removedFilterIds i).mpr hm] at h2
      exact Bool.noConfusion h2
    · rw [(containsIffMem run.removedDomainIds i).mpr hm] at h3
      exact Bool.noConfusion h3
    · rw [(containsIffMem run.removedHubspotIds i).mpr hm] at h4
      exact Bool.noConfusion h4
  · cases h

theorem mem_finalizeUnresolved (q : Frame) (run : RunState) (i : Nat)
    (hall : i ∈ q.rows.map Prod.fst)
    (h1 : i ∉ run.qualifiedIds) (h2 : i ∉ run.removedFilterIds)
    (h3 : i ∉ run.removedDomainIds) (h4 : i ∉ run.removedHubspotIds)
    (h5 : i ∉ run.removedIntraDedupeIds) :
    i ∈ finalizeUnresolvedIds q run true := by
  unfold finalizeUnresolvedIds
  rw [if_pos rfl]
  refine List.mem_filter.mpr ⟨hall, ?_⟩
  simp only [Bool.and_eq_true, Bool.not_eq_true']
  exact ⟨⟨⟨⟨contains_eq_false_of_not_mem _ _ h1, contains_eq_false_of_not_mem _ _ h2⟩,
    contains_eq_false_of_not_mem _ _ h3⟩, contains_eq_false_of_not_mem _ _ h4⟩,
    contains_eq_false_of_not_mem _ _ h5⟩

theorem ne_true_of_eq_false {b : Bool} (h : b = false) : ¬(b = true) := by
  intro hc
  rw [h] at hc
  exact Bool.noConfusion hc

/-- C9: finalizing a paused run marks every still-unclassified row
`removed_filter`/`paused_unprocessed` (when no stale reason is recorded),
keeps the removed rows' statuses and reasons, and sets the run to
`done`/progress 1; but qualified rows are NOT simply kept — they are
re-screened by a finalize-time `apply_hubspot_dedupe` pass, and a
qualified row removed there flips to `removed_hubspot` (see the
counterexample). -/
theorem c9_finalize_policy (ratio : String → String → Rat) (q : Frame)
    (dedupeDf : Option HubFrame) (run : RunState) (i : Nat) :
    (i ∈ q.rows.map Prod.fst → i ∉ run.qualifiedIds → i ∉ run.removedFilterIds →
      i ∉ run.removedDomainIds → i ∉ run.removedHubspotIds →
      i ∉ run.removedIntraDedupeIds →
      lookupNat run.removedFilterReasonById i = none →
      finalizeRowFor ratio q dedupeDf run true i =
        ("removed_filter", "paused_unprocessed")) ∧
    (i ∈ run.removedFilterIds → i ∉ run.qualifiedIds →
      finalizeRowFor ratio q dedupeDf run true i =
        ("removed_filter",
          (lookupNat run.removedFilterReasonById i).getD "rule_filter_mismatch")) ∧
    (i ∈ run.removedDomainIds → i ∉ run.qualifiedIds → i ∉ run.removedFilterIds →
      finalizeRowFor ratio q dedupeDf run true i =
        ("removed_domain",
          sanitizeDomainReason
            ("domain_" ++ (lookupNat run.removedDomainReasonById i).getD "unreachable"))) ∧
    (i ∈ run.removedHubspotIds → i ∉ run.qualifiedIds → i ∉ run.removedFilterIds →
      i ∉ run.removedDomainIds →
      finalizeRowFor ratio q dedupeDf run true i =
        ("removed_hubspot", "hubspot_duplicate_match")) ∧
    (i ∈ finalizeQualifiedIds ratio q dedupeDf run →
      finalizeRowFor ratio q dedupeDf run true i =
        ("qualified", "qualified_passed_all_checks")) ∧
    (i ∈ (finalizeWorking q run).map Prod.fst →
      i ∉ finalizeQualifiedIds ratio q dedupeDf run →
      i ∉ run.removedFilterIds → i ∉ run.removedDomainIds →
      finalizeRowFor ratio q dedupeDf run true i =
        ("removed_hubspot", "hubspot_duplicate_match")) ∧
    (finalizePausedRun ratio q dedupeDf run true).runStatus = "done" ∧
    (finalizePausedRun ratio q dedupeDf run true).runProgress = 1 ∧
    (finalizePausedRun ratio q dedupeDf run true).rows =
      q.rows.map (fun r => (r.1, finalizeRowFor ratio q dedupeDf run true r.1)) := by
  refine ⟨?_, ?_, ?_, ?_, ?_, ?_, rfl, rfl, rfl⟩
  · intro hall h1 h2 h3 h4 h5 hreason
    have hun : i ∈ finalizeUnresolvedIds q run true :=
      mem_finalizeUnresolved q run i hall h1 h2 h3 h4 h5
    have hq' : (finalizeQualifiedIds ratio q dedupeDf run).contains i = false :=
      contains_eq_false_of_not_mem _ _
        (fun hm => h1 (finalizeQualifiedIds_sub ratio q dedupeDf run i hm))
    have hrf : (finalizeRemovedFilterIds q run true).contains i = true :=
      (containsIffMem _ _).mpr (by
        unfold finalizeRemovedFilterIds
        exact List.mem_append.mpr (Or.inr hun))
    unfold finalizeRowFor finalizeRowStatus
    rw [if_neg (ne_true_of_eq_false hq'), if_pos hrf]
    have hlook : lookupNat (finalizeFilterReasons q run true) i =
        some "paused_unprocessed" := by
      unfold finalizeFilterReasons
      rw [lookupNat_setdefault_fold]
      simp [hreason, hun]
    rw [hlook]
    rfl
  · intro h1 h2
    have hnotun : i ∉ finalizeUnresolvedIds q run true :=
      fun hu => (finalizeUnresolved_excl q run true i hu).2.1 h1
    have hq' : (finalizeQualifiedIds ratio q dedupeDf run).contains i = false :=
      contains_eq_false_of_not_mem _ _
        (fun hm => h2 (finalizeQualifiedIds_sub ratio q dedupeDf run i hm))
    have hrf : (finalizeRemovedFilterIds q run true).contains i = true :=
      (containsIffMem _ _).mpr (by
        unfold finalizeRemovedFilterIds
        exact List.mem_append.mpr (Or.inl h1))
    unfold finalizeRowFor finalizeRowStatus
    rw [if_neg (ne_true_of_eq_false hq'), if_pos hrf]
    have hlook : lookupNat (finalizeFilterReasons q run true) i =
        lookupNat run.removedFilterReasonById i := by
      unfold finalizeFilterReasons
      rw [lookupNat_setdefault_fold]
      cases hre : lookupNat run.removedFilterReasonById i <;> simp [hre, hnotun]
    rw [hlook]
  · intro h1 h2 h3
    have hnotun : i ∉ finalizeUnresolvedIds q run true :=
      fun hu => (finalizeUnresolved_excl q run true i hu).2.2.1 h1
    have hq' : (finalizeQualifiedIds ratio q dedupeDf run).contains i = false :=
      contains_eq_false_of_not_mem _ _
        (fun hm => h2 (finalizeQualifiedIds_sub ratio q dedupeDf run i hm))
    have hrf : (finalizeRemovedFilterIds q run true).contains i = false :=
      contains_eq_false_of_not_mem _ _ (by
        unfold finalizeRemovedFilterIds
        exact fun hm => (List.mem_append.mp hm).elim h3 hnotun)
    have hrd : run.removedDomainIds.contains i = true := (containsIffMem _ _).mpr h1
    unfold finalizeRowFor finalizeRowStatus
    rw [if_neg (ne_true_of_eq_false hq'), if_neg (ne_true_of_eq_false hrf), if_pos hrd]
  · intro h1 h2 h3 h4
    have hnotun : i ∉ finalizeUnresolvedIds q run true :=
      fun hu => (finalizeUnresolved_excl q run true i hu).2.2.2 h1
    have hq' : (finalizeQualifiedIds ratio q dedupeDf run).contains i = false :=
      contains_eq_false_of_not_mem _ _
        (fun hm => h2 (finalizeQualifiedIds_sub ratio q dedupeDf run i hm))
    have hrf : (finalizeRemovedFilterIds q run true).contains i = false :=
      contains_eq_false_of_not_mem _ _ (by
        unfold finalizeRemovedFilterIds
        exact fun hm => (List.mem_append.mp hm).elim h3 hnotun)
    have hrd : run.removedDomainIds.contains i = false :=
      contains_eq_false_of_not_mem _ _ h4
    have hrh : (finalizeHubspotIds ratio q dedupeDf run).contains i = true :=
      (containsIffMem _ _).mpr (by
        unfold finalizeHubspotIds
        exact List.mem_append.mpr (Or.inl h1))
    unfold finalizeRowFor finalizeRowStatus
    rw [if_neg (ne_true_of_eq_false hq'), if_neg (ne_true_of_eq_false hrf),
      if_neg (ne_true_of_eq_false hrd), if_pos hrh]
  · intro h1
    have hq' : (finalizeQualifiedIds ratio q dedupeDf run).contains i = true :=
      (containsIffMem _ _).mpr h1
    unfold finalizeRowFor finalizeRowStatus
    rw [if_pos hq']
  · intro h1 h2 h3 h4
    have hqual : i ∈ run.qualifiedIds := by
      obtain ⟨r, hr, rfl⟩ := List.mem_map.mp h1
      exact (finalizeWorking_mem q run r hr).2
    have hnotun : i ∉ finalizeUnresolvedIds q run true :=
      fun hu => (finalizeUnresolved_excl q run true i hu).1 hqual
    have hq' : (finalizeQualifiedIds ratio q dedupeDf run).contains i = false :=
      contains_eq_false_of_not_mem _ _ h2
    have hrf : (finalizeRemovedFilterIds q run true).contains i = false :=
      contains_eq_false_of_not_mem _ _ (by
        unfold finalizeRemovedFilterIds
        exact fun hm => (List.mem_append.mp hm).elim h3 hnotun)
    have hrd : run.removedDomainIds.contains i = false :=
      contains_eq_false_of_not_mem _ _ h4
    have hrh : (finalizeHubspotIds ratio q dedupeDf run).contains i = true :=
      (containsIffMem _ _).mpr (by
        unfold finalizeHubspotIds
        refine List.mem_append.mpr (Or.inr (List.mem_filter.mpr ⟨h1, ?_⟩))
        rw [Bool.not_eq_true']
        exact contains_eq_false_of_not_mem _ _ h2)
    unfold finalizeRowFor finalizeRowStatus
    rw [if_neg (ne_true_of_eq_false hq'), if_neg (ne_true_of_eq_false hrf),
      if_neg (ne_true_of_eq_false hrd), if_pos hrh]

set_option maxHeartbeats 2000000 in
/-- C9 counterexample: a row classified qualified before the pause
(`qualifiedIds = [0]`) does not keep its status at finalization: the
finalize-time dedupe pass against an attached reference file removes it
as `removed_hubspot`. -/
theorem c9_finalize_policy_counterexample :
    0 ∈ (⟨[0], [], [], [], [], [], []⟩ : RunState).qualifiedIds ∧
    finalizePausedRun (fun _ _ => 0)
      ⟨["Website"], [(0, [("Website", some "acme.com")])]⟩
      (some ⟨["Website"], [[("Website", some "www.ACME.com")]]⟩)
      ⟨[0], [], [], [], [], [], []⟩ true =
      ⟨[(0, ("removed_hubspot", "hubspot_duplicate_match"))], "done", 1⟩ := by
  exact ⟨by decide, by decide⟩

set_option maxHeartbeats 2000000 in
/-- C9 witness: on a three-row frame with no dedupe file, the
unprocessed row is auto-disqualified as `paused_unprocessed`, the
already-removed row keeps its recorded reason, the qualified row stays
qualified, and the run finishes at `done`/progress 1. -/
theorem c9_finalize_policy_witness :
    finalizeRowFor (fun _ _ => 0)
      ⟨["Name"], [(0, [("Name", some "a")]), (1, [("Name", some "b")]),
        (2, [("Name", some "c")])]⟩ none
      ⟨[0], [2], [], [], [], [(2, "industry_mismatch")], []⟩ true 1 =
      ("removed_filter", "paused_unprocessed") ∧
    finalizeRowFor (fun _ _ => 0)
      ⟨["Name"], [(0, [("Name", some "a")]), (1, [("Name", some "b")]),
        (2, [("Name", some "c")])]⟩ none
      ⟨[0], [2], [], [], [], [(2, "industry_mismatch")], []⟩ true 2 =
      ("removed_filter", "industry_mismatch") ∧
    finalizeRowFor (fun _ _ => 0)
      ⟨["Name"], [(0, [("Name", some "a")]), (1, [("Name", some "b")]),
        (2, [("Name", some "c")])]⟩ none
      ⟨[0], [2], [], [], [], [(2, "industry_mismatch")], []⟩ true 0 =
      ("qualified", "qualified_passed_all_checks") ∧
    (finalizePausedRun (fun _ _ => 0)
      ⟨["Name"], [(0, [("Name", some "a")]), (1, [("Name", some "b")]),
        (2, [("Name", some "c")])]⟩ none
      ⟨[0], [2], [], [], [], [(2, "industry_mismatch")], []⟩ true).runStatus = "done" ∧
    (finalizePausedRun (fun _ _ => 0)
      ⟨["Name"], [(0, [("Name", some "a")]), (1, [("Name", some "b")]),
        (2, [("Name", some "c")])]⟩ none
      ⟨[0], [2], [], [], [], [(2, "industry_mismatch")], []⟩ true).runProgress = 1 := by
  refine ⟨?_, ?_, ?_, ?_, ?_⟩
  · exact (c9_finalize_policy (fun _ _ => 0)
      ⟨["Name"], [(0, [("Name", some "a")]), (1, [("Name", some "b")]),
        (2, [("Name", some "c")])]⟩ none
      ⟨[0], [2], [], [], [], [(2, "industry_mismatch")], []⟩ 1).1
      (by decide) (by decide) (by decide) (by decide) (by decide) (by decide) (by decide)
  · exact ((c9_finalize_policy (fun _ _ => 0)
      ⟨["Name"], [(0, [("Name", some "a")]), (1, [("Name", some "b")]),
        (2, [("Name", some "c")])]⟩ none
      ⟨[0], [2], [], [], [], [(2, "industry_mismatch")], []⟩ 2).2.1
      (by decide) (by decide)).trans (by decide)
  · exact (c9_finalize_policy (fun _ _ => 0)
      ⟨["Name"], [(0, [("Name", some "a")]), (1, [("Name", some "b")]),
        (2, [("Name", some "c")])]⟩ none
      ⟨[0], [2], [], [], [], [(2, "industry_mismatch")], []⟩ 0).2.2.2.2.1
      (by decide)
  · exact (c9_finalize_policy (fun _ _ => 0)
      ⟨["Name"], [(0, [("Name", some "a")]), (1, [("Name", some "b")]),
        (2, [("Name", some "c")])]⟩ none
      ⟨[0], [2], [], [], [], [(2, "industry_mismatch")], []⟩ 0).2.2.2.2.2.2.1
  · exact (c9_finalize_policy (fun _ _ => 0)
      ⟨["Name"], [(0, [("Name", some "a")]), (1, [("Name", some "b")]),
        (2, [("Name", some "c")])]⟩ none
      ⟨[0], [2], [], [], [], [(2, "industry_mismatch")], []⟩ 0).2.2.2.2.2.2.2.1

end Hound
